import Mathlib

/-!
Verification of the creative classification, media enrichment and
freshness-aware caching subsystem of the revenue-pro backend.

The TypeScript source (class CreativesService) is shallowly embedded: raw
JSON payloads become the inductive type JValue; JavaScript property
access, truthiness, short-circuiting boolean operators and thrown
TypeErrors are modelled explicitly; every network call made through the
ad-platform gateway is recorded in an effect log. Source functions that
catch all of their own exceptions are embedded as total functions; code
paths that can throw are embedded in the Except monad and the exception
propagates to the nearest enclosing try/catch of the source.
-/

namespace RevenuePro

/-- JSON-like runtime values. JavaScript null and undefined are conflated
into jnull: both are falsy, both make property access throw, and both are
replaced by the defaulting idiom (x || fallback) used throughout the
source, so the distinction is unobservable for the embedded code. -/
inductive JValue where
  | jnull
  | jbool (b : Bool)
  | jnum (n : Int)
  | jstr (s : String)
  | jarr (xs : List JValue)
  | jobj (fields : List (String × JValue))
deriving Repr, Inhabited

mutual

/-- Structural equality decision for JValue (the derive handler does not
support the nested List occurrences). -/
def decEqJ : (a b : JValue) → Decidable (a = b)
  | .jnull, .jnull => .isTrue rfl
  | .jbool a, .jbool b =>
    if h : a = b then .isTrue (by rw [h]) else .isFalse (fun hh => h (by injection hh))
  | .jnum a, .jnum b =>
    if h : a = b then .isTrue (by rw [h]) else .isFalse (fun hh => h (by injection hh))
  | .jstr a, .jstr b =>
    if h : a = b then .isTrue (by rw [h]) else .isFalse (fun hh => h (by injection hh))
  | .jarr xs, .jarr ys =>
    match decEqListJ xs ys with
    | .isTrue h => .isTrue (by rw [h])
    | .isFalse h => .isFalse (fun hh => h (by injection hh))
  | .jobj fs, .jobj gs =>
    match decEqFieldsJ fs gs with
    | .isTrue h => .isTrue (by rw [h])
    | .isFalse h => .isFalse (fun hh => h (by injection hh))
  | .jnull, .jbool _ => .isFalse (fun h => JValue.noConfusion h)
  | .jnull, .jnum _ => .isFalse (fun h => JValue.noConfusion h)
  | .jnull, .jstr _ => .isFalse (fun h => JValue.noConfusion h)
  | .jnull, .jarr _ => .isFalse (fun h => JValue.noConfusion h)
  | .jnull, .jobj _ => .isFalse (fun h => JValue.noConfusion h)
  | .jbool _, .jnull => .isFalse (fun h => JValue.noConfusion h)
  | .jbool _, .jnum _ => .isFalse (fun h => JValue.noConfusion h)
  | .jbool _, .jstr _ => .isFalse (fun h => JValue.noConfusion h)
  | .jbool _, .jarr _ => .isFalse (fun h => JValue.noConfusion h)
  | .jbool _, .jobj _ => .isFalse (fun h => JValue.noConfusion h)
  | .jnum _, .jnull => .isFalse (fun h => JValue.noConfusion h)
  | .jnum _, .jbool _ => .isFalse (fun h => JValue.noConfusion h)
  | .jnum _, .jstr _ => .isFalse (fun h => JValue.noConfusion h)
  | .jnum _, .jarr _ => .isFalse (fun h => JValue.noConfusion h)
  | .jnum _, .jobj _ => .isFalse (fun h => JValue.noConfusion h)
  | .jstr _, .jnull => .isFalse (fun h => JValue.noConfusion h)
  | .jstr _, .jbool _ => .isFalse (fun h => JValue.noConfusion h)
  | .jstr _, .jnum _ => .isFalse (fun h => JValue.noConfusion h)
  | .jstr _, .jarr _ => .isFalse (fun h => JValue.noConfusion h)
  | .jstr _, .jobj _ => .isFalse (fun h => JValue.noConfusion h)
  | .jarr _, .jnull => .isFalse (fun h => JValue.noConfusion h)
  | .jarr _, .jbool _ => .isFalse (fun h => JValue.noConfusion h)
  | .jarr _, .jnum _ => .isFalse (fun h => JValue.noConfusion h)
  | .jarr _, .jstr _ => .isFalse (fun h => JValue.noConfusion h)
  | .jarr _, .jobj _ => .isFalse (fun h => JValue.noConfusion h)
  | .jobj _, .jnull => .isFalse (fun h => JValue.noConfusion h)
  | .jobj _, .jbool _ => .isFalse (fun h => JValue.noConfusion h)
  | .jobj _, .jnum _ => .isFalse (fun h => JValue.noConfusion h)
  | .jobj _, .jstr _ => .isFalse (fun h => JValue.noConfusion h)
  | .jobj _, .jarr _ => .isFalse (fun h => JValue.noConfusion h)

/-- Equality decision for lists of JValue. -/
def decEqListJ : (xs ys : List JValue) → Decidable (xs = ys)
  | [], [] => .isTrue rfl
  | [], _ :: _ => .isFalse (fun h => List.noConfusion h)
  | _ :: _, [] => .isFalse (fun h => List.noConfusion h)
  | x :: xs, y :: ys =>
    match decEqJ x y with
    | .isTrue h1 =>
      match decEqListJ xs ys with
      | .isTrue h2 => .isTrue (by rw [h1, h2])
      | .isFalse h2 => .isFalse (fun h => h2 (by injection h))
    | .isFalse h1 => .isFalse (fun h => h1 (by injection h))

/-- Equality decision for JValue object field lists. -/
def decEqFieldsJ : (fs gs : List (String × JValue)) → Decidable (fs = gs)
  | [], [] => .isTrue rfl
  | [], _ :: _ => .isFalse (fun h => List.noConfusion h)
  | _ :: _, [] => .isFalse (fun h => List.noConfusion h)
  | (k1, v1) :: fs, (k2, v2) :: gs =>
    if hk : k1 = k2 then
      match decEqJ v1 v2 with
      | .isTrue h1 =>
        match decEqFieldsJ fs gs with
        | .isTrue h2 => .isTrue (by rw [hk, h1, h2])
        | .isFalse h2 => .isFalse (fun h => h2 (by injection h))
      | .isFalse h1 => .isFalse (fun h => h1 (by
          simp only [List.cons.injEq, Prod.mk.injEq] at h
          exact h.1.2))
    else .isFalse (fun h => hk (by
      simp only [List.cons.injEq, Prod.mk.injEq] at h
      exact h.1.1))

end

instance : DecidableEq JValue := decEqJ

namespace JValue

/-- JavaScript truthiness. Note that empty arrays and empty objects are
truthy in JavaScript. -/
def truthy : JValue → Bool
  | .jnull => false
  | .jbool b => b
  | .jnum n => n != 0
  | .jstr s => decide (s ≠ "")
  | .jarr _ => true
  | .jobj _ => true

/-- Property read on a non-nullish value: never throws in JavaScript.
Objects look the key up (first binding wins), arrays and strings expose
length, every other read yields undefined (modelled as jnull). -/
def getField : JValue → String → JValue
  | .jobj fs, k => match fs.lookup k with
    | some v => v
    | none => .jnull
  | .jarr xs, k => if k = "length" then .jnum xs.length else .jnull
  | .jstr s, k => if k = "length" then .jnum s.length else .jnull
  | _, _ => .jnull

/-- Plain property access a.k: throws a TypeError when a is nullish. -/
def jget (v : JValue) (k : String) : Except Unit JValue :=
  match v with
  | .jnull => .error ()
  | _ => .ok (getField v k)

/-- Optional-chain access a?.k: yields undefined when a is nullish,
otherwise reads the property; never throws. -/
def jgetOpt (v : JValue) (k : String) : JValue :=
  match v with
  | .jnull => .jnull
  | _ => getField v k

/-- JavaScript a || b. -/
def jor (a b : JValue) : JValue := if truthy a then a else b

/-- Numeric view used by relational operators: numbers compare directly,
numeric strings coerce; every other operand behaves like NaN (all
comparisons false). Fractional-string coercion is not modelled; no
embedded code path reaches it under the hypotheses of the theorems. -/
def toNum : JValue → Option Int
  | .jnum n => some n
  | .jstr s => s.toInt?
  | _ => none

/-- JavaScript a > b on the values produced by the embedded code. -/
def jsGT (a b : JValue) : Bool :=
  match toNum a, toNum b with
  | some x, some y => x > y
  | _, _ => false

/-- Strict equality (===) restricted as the embedded code uses it:
primitives compare structurally; arrays and objects compare by reference
in JavaScript, and since the compared values always originate from
distinct allocations (payload versus network response), the comparison is
modelled as false for them. -/
def jsEq : JValue → JValue → Bool
  | .jnull, .jnull => true
  | .jbool a, .jbool b => a = b
  | .jnum a, .jnum b => a = b
  | .jstr a, .jstr b => a = b
  | _, _ => false

/-- String coercion used for template literals and String(x). Array and
object coercion is approximated by placeholders; no theorem depends on
coercing a non-primitive. -/
def jsToString : JValue → String
  | .jnull => "null"
  | .jbool b => if b then "true" else "false"
  | .jnum n => toString n
  | .jstr s => s
  | .jarr _ => "[array]"
  | .jobj _ => "[object Object]"

def isArr : JValue → Bool
  | .jarr _ => true
  | _ => false

def isStr : JValue → Bool
  | .jstr _ => true
  | _ => false

def isObj : JValue → Bool
  | .jobj _ => true
  | _ => false

end JValue

open JValue

/-- The .some(child => truthy child.k) idiom: short-circuits at the first
truthy field, throws when it reaches a nullish element. -/
def jsSomeField : List JValue → String → Except Unit Bool
  | [], _ => .ok false
  | x :: xs, k =>
    if x = .jnull then .error ()
    else if truthy (getField x k) then .ok true
    else jsSomeField xs k

/-- Calling .some on an arbitrary value: only arrays have the method;
calling it on any other truthy value throws a TypeError. -/
def jsSomeFieldOn (v : JValue) (k : String) : Except Unit Bool :=
  match v with
  | .jarr xs => jsSomeField xs k
  | _ => .error ()

/-- Assembly modes, mirroring the string union of the source. -/
inductive CreativeMode where
  | STATIC
  | STATIC_CAROUSEL
  | DYNAMIC_ASSET_FEED
  | DYNAMIC_CATALOG
deriving Repr, DecidableEq, Inhabited

/-- Media types, mirroring the string union of the source. -/
inductive MediaType where
  | IMAGE
  | VIDEO
  | MIXED
deriving Repr, DecidableEq, Inhabited

/-- Embeds determineCreativeMode. The only throwing accesses are the two
reads on creativeData itself (which throw when the payload is nullish);
all deeper reads are guarded by optional chains or defaulted objects. -/
def determineCreativeMode (creativeData : JValue) : Except Unit CreativeMode := do
  let ossv ← jget creativeData "object_story_spec"
  let linkData := jor (jgetOpt ossv "link_data") (.jobj [])
  let afsv ← jget creativeData "asset_feed_spec"
  let assetFeedSpec := jor afsv (.jobj [])
  let ca := getField linkData "child_attachments"
  if truthy ca && jsGT (getField ca "length") (.jnum 1) then
    return .STATIC_CAROUSEL
  if truthy (getField assetFeedSpec "products") then
    return .DYNAMIC_CATALOG
  if truthy (getField assetFeedSpec "images") || truthy (getField assetFeedSpec "videos") then
    return .DYNAMIC_ASSET_FEED
  return .STATIC

/-- Embeds determineMediaType. The hasImages and hasVideos expressions
are evaluated in source order with JavaScript short-circuiting; the
.some calls on child_attachments throw when that field is a truthy
non-array or contains a nullish element that is reached. The creativeMode
parameter is accepted and ignored exactly as in the source. -/
def determineMediaType (creativeData : JValue) (_creativeMode : CreativeMode) :
    Except Unit MediaType := do
  let afsv ← jget creativeData "asset_feed_spec"
  let assetFeedSpec := jor afsv (.jobj [])
  let ossv ← jget creativeData "object_story_spec"
  let linkData := jor (jgetOpt ossv "link_data") (.jobj [])
  let videoData := jor (jgetOpt ossv "video_data") (.jobj [])
  let imgUrl ← jget creativeData "image_url"
  let images := getField assetFeedSpec "images"
  let ca := getField linkData "child_attachments"
  let hasImages ←
    if truthy imgUrl then pure true
    else if truthy images && jsGT (getField images "length") (.jnum 0) then pure true
    else if truthy ca then jsSomeFieldOn ca "image_hash"
    else pure false
  let vidId ← jget creativeData "video_id"
  let videos := getField assetFeedSpec "videos"
  let hasVideos ←
    if truthy vidId then pure true
    else if truthy (getField videoData "video_id") then pure true
    else if truthy videos && jsGT (getField videos "length") (.jnum 0) then pure true
    else if truthy ca then jsSomeFieldOn ca "video_id"
    else pure false
  if hasImages && hasVideos then
    return .MIXED
  else if hasVideos then
    return .VIDEO
  else
    return .IMAGE

/-- The carousel slot list of a payload, read the way the classifier
reads it (object_story_spec may be absent, link_data may be absent). -/
def carouselSlots (p : JValue) : List JValue :=
  match getField (jor (jgetOpt (jgetOpt p "object_story_spec") "link_data") (.jobj []))
      "child_attachments" with
  | .jarr xs => xs
  | _ => []

/-- Raw value of the child_attachments field. -/
def carouselField (p : JValue) : JValue :=
  getField (jor (jgetOpt (jgetOpt p "object_story_spec") "link_data") (.jobj []))
    "child_attachments"

/-- Raw value of an asset_feed_spec field. -/
def assetFeedField (p : JValue) (k : String) : JValue :=
  getField (jor (jgetOpt p "asset_feed_spec") (.jobj [])) k

/-- A payload is list-shaped when the fields the classifier treats as
lists are either absent (nullish) or actual arrays, which is the shape
the ad platform serves. The sub-structure reads themselves are shared
with the embedded classifier. -/
def ListShaped (p : JValue) : Prop :=
  p ≠ .jnull ∧
  (carouselField p = .jnull ∨ isArr (carouselField p) = true) ∧
  (assetFeedField p "products" = .jnull ∨ isArr (assetFeedField p "products") = true ∨
    isObj (assetFeedField p "products") = true) ∧
  (assetFeedField p "images" = .jnull ∨ isArr (assetFeedField p "images") = true) ∧
  (assetFeedField p "videos" = .jnull ∨ isArr (assetFeedField p "videos") = true)

instance (p : JValue) : Decidable (ListShaped p) := by
  unfold ListShaped; exact inferInstance

/-- A payload is well shaped for the media-type derivation when it is
list shaped and every carousel slot is itself non-nullish. -/
def WellShapedPayload (p : JValue) : Prop :=
  ListShaped p ∧ ∀ x ∈ carouselSlots p, x ≠ .jnull

instance (p : JValue) : Decidable (WellShapedPayload p) := by
  unfold WellShapedPayload; exact inferInstance

/-- The carousel slot value, when truthy, is an array of non-nullish
entries: the condition under which the media-type derivation cannot
reach a throwing access. -/
def SafeSlots (p : JValue) : Prop :=
  truthy (carouselField p) = true →
    isArr (carouselField p) = true ∧ ∀ x ∈ carouselSlots p, x ≠ .jnull

instance (p : JValue) : Decidable (SafeSlots p) := by
  unfold SafeSlots; exact inferInstance

/-- Spec reading of rule 1: the carousel slot list has more than one
entry. -/
def specManySlots (p : JValue) : Prop := (carouselSlots p).length > 1

instance (p : JValue) : Decidable (specManySlots p) := by
  unfold specManySlots; exact inferInstance

/-- Spec reading of rule 2: a product-catalog feed descriptor is
present. -/
def specCatalogPresent (p : JValue) : Prop := assetFeedField p "products" ≠ .jnull

instance (p : JValue) : Decidable (specCatalogPresent p) := by
  unfold specCatalogPresent; exact inferInstance

/-- Spec reading of rule 3: the dynamic asset-feed descriptor carries an
images list or a videos list. -/
def specAssetFeedMedia (p : JValue) : Prop :=
  assetFeedField p "images" ≠ .jnull ∨ assetFeedField p "videos" ≠ .jnull

instance (p : JValue) : Decidable (specAssetFeedMedia p) := by
  unfold specAssetFeedMedia; exact inferInstance

/-- The ordered first-match rule list exactly as the spec words it. -/
def specAssemblyMode (p : JValue) : CreativeMode :=
  if specManySlots p then .STATIC_CAROUSEL
  else if specCatalogPresent p then .DYNAMIC_CATALOG
  else if specAssetFeedMedia p then .DYNAMIC_ASSET_FEED
  else .STATIC

/-- Field read inside the defaulted video_data sub-object. -/
def videoDataField (p : JValue) (k : String) : JValue :=
  getField (jor (jgetOpt (jgetOpt p "object_story_spec") "video_data") (.jobj [])) k

/-- Spec reading of an image-bearing reference: a direct image
reference, asset-feed images, or a carousel slot with an image
reference. -/
def specImageBearing (p : JValue) : Bool :=
  truthy (jgetOpt p "image_url") ||
  (match assetFeedField p "images" with
    | .jarr (_ :: _) => true
    | _ => false) ||
  (carouselSlots p).any (fun s => truthy (jgetOpt s "image_hash"))

/-- Spec reading of a video-bearing reference: a direct video reference
(top level or inside video_data), asset-feed videos, or a carousel slot
with a video reference. -/
def specVideoBearing (p : JValue) : Bool :=
  truthy (jgetOpt p "video_id") ||
  truthy (videoDataField p "video_id") ||
  (match assetFeedField p "videos" with
    | .jarr (_ :: _) => true
    | _ => false) ||
  (carouselSlots p).any (fun s => truthy (jgetOpt s "video_id"))

/-- Error value carried by a rejected gateway call: the ad platform
reports a numeric error code (10 is the permission-denied class) and a
message. -/
structure FbError where
  code : Option Int
  msg : String
deriving Repr, DecidableEq

/-- One entry of the effect log: either a network call through the
ad-platform gateway (fbGet) or an operation on the creative store. -/
inductive Eff where
  | netCreative (id : String)
  | netVideo (id : String)
  | netAdimages (hashes : List JValue)
  | netPreviews (id : String)
  | storeGet (id : String)
  | storeUpsert (id : String)
  | storeUpdate (id : String)
deriving Repr, DecidableEq

/-- Network calls, as opposed to store operations. -/
def Eff.isNet : Eff → Bool
  | .storeGet _ => false
  | .storeUpsert _ => false
  | .storeUpdate _ => false
  | _ => true

/-- The ad-platform gateway as a read-only oracle: each field gives the
settled outcome of one fbGet endpoint used by the service. The ad
account id only selects the adimages endpoint path and is left implicit.
Modelled from the spec: fbGet itself (the gateway collaborator) is not
part of the embedded core. -/
structure Env where
  creativeObj : String → Except FbError JValue
  videoObj : String → Except FbError JValue
  adimages : List JValue → Except FbError JValue
  previews : String → Except FbError JValue

/-- Result shape of the single-hash image lookup: url, width and height,
each jnull when unavailable. -/
structure ImageLookup where
  url : JValue
  width : JValue
  height : JValue
deriving Repr, DecidableEq

def nullLookup : ImageLookup := ⟨.jnull, .jnull, .jnull⟩

/-- One entry of the batched hash-resolution result. -/
structure ImgResult where
  url : JValue
  hash : JValue
  width : JValue
  height : JValue
deriving Repr, DecidableEq

/-- The .find(img => img.hash === target) idiom: short-circuits at the
first match, throws on a nullish element it reaches. -/
def jsFindEqField : List JValue → String → JValue → Except Unit (Option JValue)
  | [], _, _ => .ok none
  | x :: xs, k, target =>
    match x with
    | .jnull => .error ()
    | _ =>
      if jsEq (getField x k) target then .ok (some x)
      else jsFindEqField xs k target

/-- URL preference chain permalink_url || url_128 || url of the batch
path (no trailing null default in the source expression). -/
def pickImageUrl (imageData : JValue) : JValue :=
  jor (getField imageData "permalink_url")
    (jor (getField imageData "url_128") (getField imageData "url"))

/-- Embeds fetchImageUrlFromHash (the canonical adimages variant). The
function catches every exception internally, so it is total; a thrown
TypeError inside the find callback lands in the catch and yields the
null result. -/
def fetchImageUrlFromHash (imageHash : JValue) (env : Env) : ImageLookup × List Eff :=
  if ¬ truthy imageHash then (nullLookup, [])
  else
    let log := [Eff.netAdimages [imageHash]]
    match env.adimages [imageHash] with
    | .error _ => (nullLookup, log)
    | .ok response =>
      match jgetOpt response "data" with
      | .jarr xs =>
        match jsFindEqField xs "hash" imageHash with
        | .error _ => (nullLookup, log)
        | .ok none => (nullLookup, log)
        | .ok (some imageData) =>
          let u := jor (pickImageUrl imageData) .jnull
          if truthy u then
            (⟨u, jor (getField imageData "width") .jnull,
              jor (getField imageData "height") .jnull⟩, log)
          else (nullLookup, log)
      | _ => (nullLookup, log)

/-- Collection loop of the batch path: keeps a response entry when its
hash field is truthy, is a member of the requested hash list, and one of
the url fields is truthy. -/
def collectBatch (hashes : List JValue) : List JValue → List ImgResult
  | [] => []
  | x :: xs =>
    let rest := collectBatch hashes xs
    let hv := jgetOpt x "hash"
    if truthy hv && hashes.any (fun h => jsEq h hv) then
      let u := pickImageUrl x
      if truthy u then
        ⟨u, hv, jor (getField x "width") .jnull, jor (getField x "height") .jnull⟩ :: rest
      else rest
    else rest

/-- Sequential per-hash fallback loop of the batch resolver: one single
lookup per input hash, keeping the successful ones. -/
def batchFallback (env : Env) : List JValue → List ImgResult × List Eff
  | [] => ([], [])
  | h :: hs =>
    let (info, l1) := fetchImageUrlFromHash h env
    let (rest, l2) := batchFallback env hs
    ((if truthy info.url then (⟨info.url, h, info.width, info.height⟩ :: rest) else rest),
      l1 ++ l2)

/-- Embeds fetchImageUrlsFromHashes: one batched adimages call, filtered
against the requested hashes; on a rejected batch call, sequential
single-hash fallback. Total: all exceptions are caught internally. -/
def fetchImageUrlsFromHashes (imageHashes : List JValue) (env : Env) :
    List ImgResult × List Eff :=
  if imageHashes.isEmpty then ([], [])
  else
    let log := [Eff.netAdimages imageHashes]
    match env.adimages imageHashes with
    | .ok response =>
      match jgetOpt response "data" with
      | .jarr xs => (collectBatch imageHashes xs, log)
      | _ => ([], log)
    | .error _ =>
      let (res, l2) := batchFallback env imageHashes
      (res, log ++ l2)

/-- The batch response is hash-unambiguous: when the batched call
resolves with an array payload, no two entries carry the same hash
value. The ad platform answers one entry per requested hash; the length
bound of the batch resolver is stated under this response shape. -/
def respHashesNodupB : Except FbError JValue → Bool
  | .ok resp =>
    match jgetOpt resp "data" with
    | .jarr xs => decide ((xs.map (fun x => jgetOpt x "hash")).Nodup)
    | _ => true
  | .error _ => true

/-- The value scale || width || 0 of one thumbnail variant. -/
def thumbKeyVal (t : JValue) : JValue :=
  jor (getField t "scale") (jor (getField t "width") (.jnum 0))

/-- Key of one thumbnail variant in the reduce of fetchVideoDetails:
scale || width || 0; dereferencing a nullish variant throws. -/
def thumbKey (t : JValue) : Except Unit JValue :=
  match t with
  | .jnull => .error ()
  | _ => .ok (thumbKeyVal t)

/-- Numeric reading of the reduce key (0 when it is not numeric; the
theorems only use it where the key is numeric). -/
def keyNum (t : JValue) : Int := (toNum (thumbKeyVal t)).getD 0

/-- Area of a thumbnail variant, width times height, as the spec words
largest by area. -/
def thumbArea (t : JValue) : Int :=
  (toNum (getField t "width")).getD 0 * (toNum (getField t "height")).getD 0

/-- The thumbnail-selection property exactly as the spec words it: the
chosen uri belongs to a variant that is largest by area, or to a variant
that reports a scale no other variant exceeds. -/
def specLargestByAreaOrScale (variants : List JValue) (chosen : JValue) : Prop :=
  (∃ t ∈ variants, getField t "uri" = chosen ∧
    ∀ u ∈ variants, thumbArea u ≤ thumbArea t) ∨
  (∃ t ∈ variants, getField t "uri" = chosen ∧
    ∃ n : Int, toNum (getField t "scale") = some n ∧
      ∀ u ∈ variants, (toNum (getField u "scale")).getD 0 ≤ n)

instance (vs : List JValue) (c : JValue) : Decidable (specLargestByAreaOrScale vs c) := by
  unfold specLargestByAreaOrScale; exact inferInstance

/-- The reduce picking the thumbnail with the largest key; on equal keys
the earlier variant is kept, exactly as currentScale > prevScale does. -/
def reduceLargest (acc : JValue) : List JValue → Except Unit JValue
  | [] => .ok acc
  | c :: cs => do
    let pk ← thumbKey acc
    let ck ← thumbKey c
    reduceLargest (if jsGT ck pk then c else acc) cs

/-- Writes one field of an object, keeping the position of an existing
key, as the spread-and-override literal of the source does. Spreading a
non-object is approximated by the fresh singleton object. -/
def objSetField (v : JValue) (k : String) (x : JValue) : JValue :=
  match v with
  | .jobj fs => .jobj (setEntry fs)
  | _ => .jobj [(k, x)]
where
  setEntry : List (String × JValue) → List (String × JValue)
    | [] => [(k, x)]
    | (k1, v1) :: fs => if k1 = k then (k, x) :: fs else (k1, v1) :: setEntry fs

/-- Embeds fetchVideoDetails. Total (catches internally): a nullish
video response, a truthy non-string source (the logging call applies
substring to it), a non-array thumbnails list reached by reduce, or a
nullish thumbnail variant reached by the key computation all throw into
the catch and yield none. On success the response is returned with its
picture field replaced by the selected thumbnail uri (falling back to
the original picture). -/
def fetchVideoDetails (videoId : String) (env : Env) : Option JValue × List Eff :=
  let log := [Eff.netVideo videoId]
  match env.videoObj videoId with
  | .error _ => (none, log)
  | .ok videoData =>
    if videoData = .jnull then (none, log)
    else
      let src := getField videoData "source"
      if truthy src = true ∧ isStr src = false then (none, log)
      else
        let th := getField videoData "thumbnails"
        let thd := jgetOpt th "data"
        if jsGT (jgetOpt thd "length") (.jnum 0) then
          match thd with
          | .jarr (y :: ys) =>
            match reduceLargest y ys with
            | .error _ => (none, log)
            | .ok largest =>
              let hq := jor (getField largest "uri") (getField videoData "picture")
              (some (objSetField videoData "picture" hq), log)
          | _ => (none, log)
        else
          (some (objSetField videoData "picture" (getField videoData "picture")), log)

/-- Embeds fetchVideoPreviewIframe: one previews call, returning the
body of the first preview when it is a non-empty string. Total. -/
def fetchVideoPreviewIframe (creativeId : String) (env : Env) :
    Option String × List Eff :=
  let log := [Eff.netPreviews creativeId]
  match env.previews creativeId with
  | .error _ => (none, log)
  | .ok response =>
    match jgetOpt response "data" with
    | .jarr (x :: _) =>
      match jgetOpt x "body" with
      | .jstr s => if s ≠ "" then (some s, log) else (none, log)
      | _ => (none, log)
    | _ => (none, log)

/-- One entry of the videos array produced by enrichVideoMedia. -/
structure VideoItem where
  id : JValue
  url : JValue
  thumbnailUrl : JValue
  duration : JValue
deriving Repr, DecidableEq

/-- Result of one video enrichment pass. -/
structure VideoEnrichment where
  videos : List VideoItem
  videoUrls : List JValue
  videoIds : List JValue
  previewIframes : List String
  thumbnailUrl : JValue
deriving Repr, DecidableEq

/-- Embeds enrichVideoMedia. videoIds always holds exactly the requested
id. The try/catch with the permission-code test in the source is
unreachable: fetchVideoDetails and fetchVideoPreviewIframe both catch
their own errors and resolve, so the embedded body is the plain
conditional. -/
def enrichVideoMedia (videoId : JValue) (creativeId : JValue) (env : Env) :
    VideoEnrichment × List Eff :=
  let (vd, l1) := fetchVideoDetails (jsToString videoId) env
  match vd with
  | some d =>
    if truthy (getField d "source") then
      ({ videos := [⟨videoId, getField d "source", jor (getField d "picture") .jnull,
          jor (getField d "length") .jnull⟩],
         videoUrls := [getField d "source"],
         videoIds := [videoId],
         previewIframes := [],
         thumbnailUrl := jor (getField d "picture") .jnull }, l1)
    else
      let (pf, l2) := fetchVideoPreviewIframe (jsToString creativeId) env
      ({ videos := [], videoUrls := [], videoIds := [videoId],
         previewIframes := match pf with | some s => [s] | none => [],
         thumbnailUrl := .jnull }, l1 ++ l2)
  | none =>
    let (pf, l2) := fetchVideoPreviewIframe (jsToString creativeId) env
    ({ videos := [], videoUrls := [], videoIds := [videoId],
       previewIframes := match pf with | some s => [s] | none => [],
       thumbnailUrl := .jnull }, l1 ++ l2)

/-- One extracted (not yet normalized) carousel slot. -/
structure ChildAttachment where
  name : JValue
  description : JValue
  imageUrl : JValue
  imageHash : JValue
  link : JValue
  videoId : JValue
deriving Repr, DecidableEq

/-- One resolved carousel image. -/
structure CarouselImage where
  url : JValue
  hash : JValue
  width : JValue
  height : JValue
  name : JValue
  description : JValue
  link : JValue
deriving Repr, DecidableEq

/-- Result of the carousel enrichment pass. -/
structure CarouselEnrichment where
  images : List CarouselImage
  imageUrls : List JValue
  imageHashes : List JValue
deriving Repr, DecidableEq

/-- Lookup in the Map built from (hash, entry) pairs: a Map keeps the
last binding written for a key. -/
def mapLookupLast (rs : List ImgResult) (k : JValue) : Option ImgResult :=
  rs.reverse.find? (fun r => jsEq r.hash k)

/-- The re-association loop of enrichCarouselImages: slots whose hash
resolved get an image and a url, the rest are dropped. -/
def carouselCollect (rs : List ImgResult) :
    List ChildAttachment → List CarouselImage × List JValue
  | [] => ([], [])
  | c :: cs =>
    let (imgs, urls) := carouselCollect rs cs
    if truthy c.imageHash then
      match mapLookupLast rs c.imageHash with
      | some r =>
        if truthy r.url then
          (⟨r.url, c.imageHash, r.width, r.height, jor c.name .jnull,
            jor c.description .jnull, jor c.link .jnull⟩ :: imgs, r.url :: urls)
        else (imgs, urls)
      | none => (imgs, urls)
    else (imgs, urls)

/-- Embeds enrichCarouselImages: collect the truthy slot hashes, resolve
them in one batched call, re-associate by hash. imageHashes is set to
every collected hash before the resolution, exactly as in the source.
Total: the batch resolver catches its own errors. -/
def enrichCarouselImages (childAttachments : List ChildAttachment) (env : Env) :
    CarouselEnrichment × List Eff :=
  let carouselHashes := (childAttachments.map (fun c => c.imageHash)).filter truthy
  if carouselHashes.isEmpty then (⟨[], [], []⟩, [])
  else
    let (imageUrls, log) := fetchImageUrlsFromHashes carouselHashes env
    let (imgs, urls) := carouselCollect imageUrls childAttachments
    (⟨imgs, urls, carouselHashes⟩, log)

/-- One image entry of the dynamic asset-feed enrichment. -/
structure DynImage where
  url : JValue
  hash : JValue
  width : JValue
  height : JValue
deriving Repr, DecidableEq

/-- Result of the dynamic asset-feed image enrichment. -/
structure DynEnrichment where
  images : List DynImage
  imageUrls : List JValue
  imageHashes : List JValue
deriving Repr, DecidableEq

/-- The filter img.url && img.hash of enrichDynamicImages: throws when
it dereferences a nullish element. -/
def dynWithUrls : List JValue → Except Unit (List DynImage)
  | [] => .ok []
  | x :: xs =>
    match x with
    | .jnull => .error ()
    | _ => do
      let rest ← dynWithUrls xs
      if truthy (getField x "url") && truthy (getField x "hash") then
        pure (⟨getField x "url", getField x "hash", getField x "width",
          getField x "height"⟩ :: rest)
      else pure rest

/-- The hash-only selection of enrichDynamicImages: entries with a
truthy hash and no url, coerced to strings, empty strings dropped. -/
def dynHashesNeeding : List JValue → Except Unit (List String)
  | [] => .ok []
  | x :: xs =>
    match x with
    | .jnull => .error ()
    | _ => do
      let rest ← dynHashesNeeding xs
      if truthy (getField x "hash") && ¬ truthy (getField x "url") then
        let s := jsToString (getField x "hash")
        if s ≠ "" then pure (s :: rest) else pure rest
      else pure rest

/-- Embeds enrichDynamicImages: split the feed images into entries that
already carry a url and hashes that need the batched resolution, then
concatenate preserving feed order. Throws (to the caller of
parseCreativeData) when the images value is a truthy non-array or
contains a reachable nullish element. -/
def enrichDynamicImages (assetFeedSpec : JValue) (env : Env) :
    Except Unit (DynEnrichment × List Eff) := do
  let imgs := jgetOpt assetFeedSpec "images"
  if ¬ truthy imgs || jsEq (getField imgs "length") (.jnum 0) then
    pure (⟨[], [], []⟩, [])
  else
    match imgs with
    | .jarr xs => do
      let imagesWithUrls ← dynWithUrls xs
      let needing ← dynHashesNeeding xs
      let uniqueNeeding := needing.eraseDups
      let (fetchedUrls, log) :=
        if uniqueNeeding.length > 0 then
          fetchImageUrlsFromHashes (uniqueNeeding.map JValue.jstr) env
        else ([], [])
      let images := imagesWithUrls ++
        fetchedUrls.map (fun r => (⟨r.url, r.hash, r.width, r.height⟩ : DynImage))
      pure (⟨images, images.map (fun i => i.url), images.map (fun i => i.hash)⟩, log)
    | _ => .error ()

/-- The asset_feed_spec summary extracted for Advantage-plus creatives. -/
structure AssetFeedData where
  imageHash : JValue
  primaryText : JValue
  headline : JValue
  description : JValue
  callToAction : JValue
deriving Repr, DecidableEq

/-- Number of own keys, as Object.keys().length behaves on the values a
payload can hold (strings and arrays expose their indices). -/
def keysLength : JValue → Nat
  | .jobj fs => fs.length
  | .jstr s => s.length
  | .jarr xs => xs.length
  | _ => 0

/-- Indexing v[0] as the source uses it. -/
def index0 : JValue → JValue
  | .jarr (x :: _) => x
  | .jstr s =>
    match s.toList with
    | c :: _ => .jstr (String.mk [c])
    | [] => .jnull
  | _ => .jnull

/-- Embeds extractAssetFeedData. Total. -/
def extractAssetFeedData (assetFeedSpec : JValue) : AssetFeedData :=
  if ¬ truthy assetFeedSpec || keysLength assetFeedSpec = 0 then
    ⟨.jnull, .jnull, .jnull, .jnull, .jnull⟩
  else
    let assetImages := jor (getField assetFeedSpec "images") (.jarr [])
    let assetBodies := jor (getField assetFeedSpec "bodies") (.jarr [])
    let assetTitles := jor (getField assetFeedSpec "titles") (.jarr [])
    let assetDescriptions := jor (getField assetFeedSpec "descriptions") (.jarr [])
    let assetCtas := jor (getField assetFeedSpec "call_to_actions") (.jarr [])
    { imageHash := jor (jgetOpt (index0 assetImages) "hash") .jnull,
      primaryText := jor (jgetOpt (index0 assetBodies) "text") .jnull,
      headline := jor (jgetOpt (index0 assetTitles) "text") .jnull,
      description := jor (jgetOpt (index0 assetDescriptions) "text") .jnull,
      callToAction := jor (index0 assetCtas) .jnull }

/-- Embeds extractChildAttachments: maps the defaulted slot list into
the normalized slot structure; throws when the slot list is a truthy
non-array or holds a nullish slot. -/
def extractChildAttachments (linkData : JValue) :
    Except Unit (List ChildAttachment) :=
  let ca := jor (jgetOpt linkData "child_attachments") (.jarr [])
  match ca with
  | .jarr xs => xs.mapM (fun child =>
      match child with
      | .jnull => .error ()
      | _ => .ok (⟨jor (getField child "name") .jnull,
          jor (getField child "description") .jnull,
          jor (getField child "image_url") .jnull,
          jor (getField child "image_hash") .jnull,
          jor (getField child "link") .jnull,
          jor (getField child "video_id") .jnull⟩ : ChildAttachment))
  | _ => .error ()

/-- Text fields assembled from the payload sources in priority order. -/
structure ContentFields where
  primaryText : JValue
  headline : JValue
  description : JValue
  body : JValue
deriving Repr, DecidableEq

/-- Embeds extractContentFields; the payload is known to be non-nullish
at every call site, hence the direct field reads. -/
def extractContentFields (creativeData : JValue) (afd : AssetFeedData)
    (linkData videoData photoData : JValue) : ContentFields :=
  { primaryText := jor afd.primaryText (jor (getField creativeData "body")
      (jor (getField linkData "message") (jor (getField photoData "message")
        (jor (getField videoData "message") .jnull)))),
    headline := jor afd.headline (jor (getField creativeData "title")
      (jor (getField linkData "name") .jnull)),
    description := jor afd.description (jor (getField linkData "description") .jnull),
    body := jor afd.primaryText (jor (getField creativeData "body") .jnull) }

/-- One normalized carousel slot of the persisted record. -/
structure NormChild where
  name : JValue
  description : JValue
  imageUrl : JValue
  imageHash : JValue
  link : JValue
  videoId : JValue
deriving Repr, DecidableEq

/-- Slot normalization of parseCreativeData: text fields default to the
empty string, optional fields to undefined. -/
def normalizeChild (c : ChildAttachment) : NormChild :=
  ⟨jor c.name (.jstr ""), jor c.description (.jstr ""), jor c.imageUrl (.jstr ""),
    jor c.imageHash .jnull, jor c.link (.jstr ""), jor c.videoId .jnull⟩

/-- The normalized creative record built by parseCreativeData and held
by the creative store (the media-relevant projection of ICreative;
lastFetchedAt is a millisecond timestamp). -/
structure ParsedCreative where
  creativeId : JValue
  adAccountId : String
  name : JValue
  primaryText : JValue
  headline : JValue
  description : JValue
  body : JValue
  thumbnailUrl : JValue
  childAttachments : List NormChild
  callToAction : JValue
  creativeMode : CreativeMode
  mediaType : MediaType
  imageHashes : List JValue
  imageUrls : List JValue
  videoIds : List JValue
  videoUrls : List JValue
  previewIframe : List String
  objectStorySpec : JValue
  rawData : JValue
  lastFetchedAt : Nat
deriving Repr, DecidableEq

/-- STEP 4 of parseCreativeData: the mode dispatch that populates the
five media accumulators (imageUrls, imageHashes, videoUrls, videoIds,
previewIframes), factored out of the embedding for proof modularity. -/
def parseMediaDispatch (creativeData assetFeedSpec : JValue)
    (childAttachments : List ChildAttachment)
    (videoId imageUrl imageHash : JValue) (creativeMode : CreativeMode) (env : Env) :
    Except Unit ((List JValue × List JValue × List JValue × List JValue ×
      List String) × List Eff) :=
  if creativeMode = .DYNAMIC_ASSET_FEED then
    let vids := getField assetFeedSpec "videos"
    let pr :=
      if truthy vids && isArr vids && jsGT (getField vids "length") (.jnum 0) then
        let (pf, l) := fetchVideoPreviewIframe
          (jsToString (getField creativeData "id")) env
        ((match pf with | some s => [s] | none => []), l)
      else ([], [])
    let imgs := getField assetFeedSpec "images"
    if truthy imgs && isArr imgs && jsGT (getField imgs "length") (.jnum 0) then do
      let (dyn, lb) ← enrichDynamicImages assetFeedSpec env
      pure ((dyn.imageUrls, dyn.imageHashes, [], [], pr.1), pr.2 ++ lb)
    else
      pure (([], [], [], [], pr.1), pr.2)
  else if creativeMode = .STATIC then
    if truthy videoId then
      let (ve, l) := enrichVideoMedia videoId (getField creativeData "id") env
      pure (([], [], ve.videoUrls, ve.videoIds, ve.previewIframes), l)
    else if truthy imageUrl then
      pure (([imageUrl], (if truthy imageHash then [imageHash] else []), [], [], []), [])
    else if truthy imageHash then
      let (info, l) := fetchImageUrlFromHash imageHash env
      pure (((if truthy info.url then [info.url] else []), [imageHash], [], [], []), l)
    else
      pure (([], [], [], [], []), [])
  else if creativeMode = .STATIC_CAROUSEL ∧ 0 < childAttachments.length then
    let (ce, l) := enrichCarouselImages childAttachments env
    pure ((ce.imageUrls, ce.imageHashes, [], [], []), l)
  else
    pure (([], [], [], [], []), [])

/-- The final single-hash fallback of parseCreativeData: one more
resolution attempt when no image url was produced, the top-level hash is
truthy and it was not already recorded. -/
def parseImageFallback (imageUrls imageHashes : List JValue) (imageHash : JValue)
    (env : Env) : List JValue × List JValue × List Eff :=
  if imageUrls.length = 0 && truthy imageHash &&
      ¬ (imageHashes.any (fun h => jsEq h imageHash)) then
    let (info, l) := fetchImageUrlFromHash imageHash env
    if truthy info.url then (imageUrls ++ [info.url], imageHashes ++ [imageHash], l)
    else (imageUrls, imageHashes, l)
  else (imageUrls, imageHashes, [])

/-- Embeds parseCreativeData: classify, extract, dispatch the enrichment
on the assembly mode, run the final single-hash fallback, and assemble
the record. Errors propagate to the try/catch in getCreative. -/
def parseCreativeData (creativeData : JValue) (adAccountId : String) (now : Nat)
    (env : Env) : Except Unit (ParsedCreative × List Eff) := do
  let oss0 ← jget creativeData "object_story_spec"
  let oss := jor oss0 (.jobj [])
  let linkData := jor (getField oss "link_data") (.jobj [])
  let photoData := jor (getField oss "photo_data") (.jobj [])
  let videoData := jor (getField oss "video_data") (.jobj [])
  let afs0 ← jget creativeData "asset_feed_spec"
  let assetFeedSpec := jor afs0 (.jobj [])
  let creativeMode ← determineCreativeMode creativeData
  let mediaType ← determineMediaType creativeData creativeMode
  let childAttachments ← extractChildAttachments linkData
  let assetFeedData := extractAssetFeedData assetFeedSpec
  let contentFields := extractContentFields creativeData assetFeedData linkData
    videoData photoData
  let topLevelVideoId := jor (getField creativeData "video_id") .jnull
  let videoId := jor (getField videoData "video_id") (jor topLevelVideoId .jnull)
  let imageUrl := jor (getField creativeData "image_url") .jnull
  let imageHash := jor (getField creativeData "image_hash")
    (jor (getField photoData "image_hash") (jor assetFeedData.imageHash .jnull))
  let thumbnailUrl := jor (getField creativeData "thumbnail_url") .jnull
  let (media, log1) ← parseMediaDispatch creativeData assetFeedSpec childAttachments
    videoId imageUrl imageHash creativeMode env
  let (imageUrls, imageHashes, videoUrls, videoIds, previewIframes) := media
  let (imageUrls2, imageHashes2, log2) :=
    parseImageFallback imageUrls imageHashes imageHash env
  let callToAction := jor assetFeedData.callToAction
    (jor (getField creativeData "call_to_action")
      (jor (getField linkData "call_to_action")
        (jor (getField videoData "call_to_action") .jnull)))
  .ok ({ creativeId := getField creativeData "id",
         adAccountId := adAccountId,
         name := jor (getField creativeData "name") .jnull,
         primaryText := contentFields.primaryText,
         headline := contentFields.headline,
         description := contentFields.description,
         body := contentFields.body,
         thumbnailUrl := thumbnailUrl,
         childAttachments := childAttachments.map normalizeChild,
         callToAction := callToAction,
         creativeMode := creativeMode,
         mediaType := mediaType,
         imageHashes := imageHashes2,
         imageUrls := imageUrls2,
         videoIds := videoIds,
         videoUrls := videoUrls,
         previewIframe := previewIframes,
         objectStorySpec := oss,
         rawData := creativeData,
         lastFetchedAt := now }, log1 ++ log2)

/-- Modelled from the spec: the creative store collaborator
(CreativesRepository is referenced but not among the embedded sources).
Spec contract: persistence keyed by creative id with at most one record
per id, offering point lookup, upsert and partial update, where upsert
and update return the stored record. -/
abbrev Store := List (String × ParsedCreative)

/-- Modelled from the spec: point lookup by creative id. -/
def storeFind (store : Store) (id : String) : Option ParsedCreative :=
  (store.find? (fun kv => kv.1 == id)).map (fun kv => kv.2)

/-- Modelled from the spec: upsert writes the record under its creative
id, replacing an existing record in place or appending a new one. -/
def storeUpsertRec (store : Store) (rec : ParsedCreative) : Store :=
  let key := jsToString rec.creativeId
  if store.any (fun kv => kv.1 == key) then
    store.map (fun kv => if kv.1 == key then (key, rec) else kv)
  else store ++ [(key, rec)]

/-- Modelled from the spec: partial update of the record stored under an
id, returning the updated record, or none when no record exists. -/
def storeUpdateWith (store : Store) (id : String) (f : ParsedCreative → ParsedCreative) :
    Store × Option ParsedCreative :=
  match storeFind store id with
  | none => (store, none)
  | some ex =>
    (store.map (fun kv => if kv.1 == id then (id, f ex) else kv), some (f ex))

/-- The freshness test of the 7-day cache rule: daysSinceUpdate < 7 with
real-number division is exactly a millisecond difference below
604800000. -/
def isFresh (now t : Nat) : Bool := ((now : Int) - (t : Int)) < 604800000

/-- Embeds getCreative. The access token only authenticates the gateway
calls and is absorbed by the environment oracle. The effect log of a
parse run that throws is not tracked (no property inspects it). -/
def getCreative (creativeId adAccountId : String) (forceRefresh : Bool) (now : Nat)
    (env : Env) (store : Store) : Option ParsedCreative × Store × List Eff :=
  if creativeId = "" then (none, store, [])
  else
    let hit : Option ParsedCreative :=
      if forceRefresh then none
      else
        match storeFind store creativeId with
        | some c => if isFresh now c.lastFetchedAt then some c else none
        | none => none
    let log0 : List Eff := if forceRefresh then [] else [.storeGet creativeId]
    match hit with
    | some c => (some c, store, log0)
    | none =>
      let log1 := log0 ++ [.netCreative creativeId]
      match env.creativeObj creativeId with
      | .ok creativeData =>
        match parseCreativeData creativeData adAccountId now env with
        | .ok (parsed, plog) =>
          let store2 := storeUpsertRec store parsed
          (some parsed, store2,
            log1 ++ plog ++ [.storeUpsert (jsToString parsed.creativeId)])
        | .error _ =>
          (storeFind store creativeId, store, log1 ++ [.storeGet creativeId])
      | .error _ => (storeFind store creativeId, store, log1 ++ [.storeGet creativeId])

/-- The tail of refreshCreativeUrls from the video check onward; the
carousel branch can fall through into it when the batched resolution
returned nothing. -/
def refreshVideoTail (creativeId adAccountId : String) (now : Nat) (env : Env)
    (store : Store) (existing : ParsedCreative) (plog : List Eff) :
    Option ParsedCreative × Store × List Eff :=
  if existing.mediaType = .VIDEO ∨ existing.mediaType = .MIXED then
    match existing.videoIds.head? with
    | none =>
      let (r, s, l) := getCreative creativeId adAccountId true now env store
      (r, s, plog ++ l)
    | some videoId =>
      if ¬ truthy videoId then
        let (r, s, l) := getCreative creativeId adAccountId true now env store
        (r, s, plog ++ l)
      else
        let (ve, l1) := enrichVideoMedia videoId (.jstr creativeId) env
        if ve.videoUrls.length > 0 ∨ ve.previewIframes.length > 0 then
          let upd := fun (ex : ParsedCreative) =>
            { ex with
              videoUrls := ve.videoUrls
              videoIds := ve.videoIds
              previewIframe := ve.previewIframes
              imageUrls := existing.imageUrls
              thumbnailUrl := jor ve.thumbnailUrl existing.thumbnailUrl
              lastFetchedAt := now }
          let (store2, updated) := storeUpdateWith store creativeId upd
          (updated, store2, plog ++ l1 ++ [.storeUpdate creativeId])
        else
          let (r, s, l) := getCreative creativeId adAccountId true now env store
          (r, s, plog ++ l1 ++ l)
  else
    let (r, s, l) := getCreative creativeId adAccountId true now env store
    (r, s, plog ++ l)

/-- Embeds refreshCreativeUrls (smart refresh). The try/catch of the
source is unreachable: every callee inside the try is total. -/
def refreshCreativeUrls (creativeId adAccountId : String) (now : Nat) (env : Env)
    (store : Store) : Option ParsedCreative × Store × List Eff :=
  let log0 : List Eff := [.storeGet creativeId]
  match storeFind store creativeId with
  | none =>
    let (r, s, l) := getCreative creativeId adAccountId true now env store
    (r, s, log0 ++ l)
  | some existing =>
    if existing.creativeMode = .DYNAMIC_ASSET_FEED ∨
        existing.creativeMode = .DYNAMIC_CATALOG then
      let imageHashes :=
        if existing.imageHashes.length > 0 then existing.imageHashes else []
      if imageHashes.length > 0 then
        let (imageUrls, l1) := fetchImageUrlsFromHashes imageHashes env
        if imageUrls.length > 0 then
          let upd := fun (ex : ParsedCreative) =>
            let headUrl := match imageUrls with
              | r :: _ => r.url
              | [] => JValue.jnull
            { ex with
              imageUrls := imageUrls.map (fun i => i.url)
              imageHashes := imageUrls.map (fun i => i.hash)
              thumbnailUrl := jor headUrl existing.thumbnailUrl
              lastFetchedAt := now }
          let (store2, updated) := storeUpdateWith store creativeId upd
          (updated, store2, log0 ++ l1 ++ [.storeUpdate creativeId])
        else
          let (r, s, l) := getCreative creativeId adAccountId true now env store
          (r, s, log0 ++ l1 ++ l)
      else
        let (r, s, l) := getCreative creativeId adAccountId true now env store
        (r, s, log0 ++ l)
    else if existing.creativeMode = .STATIC_CAROUSEL then
      let imageHashes :=
        if existing.imageHashes.length > 0 then existing.imageHashes else []
      if imageHashes.length = 0 then
        let (r, s, l) := getCreative creativeId adAccountId true now env store
        (r, s, log0 ++ l)
      else
        let (imageUrls, l1) := fetchImageUrlsFromHashes imageHashes env
        if imageUrls.length > 0 then
          let upd := fun (ex : ParsedCreative) =>
            let headUrl := match imageUrls with
              | r :: _ => r.url
              | [] => JValue.jnull
            { ex with
              imageUrls := imageUrls.map (fun i => i.url)
              imageHashes := imageUrls.map (fun i => i.hash)
              thumbnailUrl := jor headUrl existing.thumbnailUrl
              lastFetchedAt := now }
          let (store2, updated) := storeUpdateWith store creativeId upd
          (updated, store2, log0 ++ l1 ++ [.storeUpdate creativeId])
        else
          refreshVideoTail creativeId adAccountId now env store existing (log0 ++ l1)
    else
      refreshVideoTail creativeId adAccountId now env store existing log0

/-- Concrete two-slot carousel payload used as witness input. -/
def carouselPayload : JValue :=
  .jobj [("id", .jstr "c100"),
    ("object_story_spec", .jobj [("link_data", .jobj [("child_attachments",
      .jarr [.jobj [("image_hash", .jstr "h1")],
             .jobj [("image_hash", .jstr "h2")]])])])]

/-- Concrete payload carrying both a direct image and a direct video
reference, used as witness input. -/
def mixedPayload : JValue :=
  .jobj [("id", .jstr "c200"), ("image_url", .jstr "http-image"),
    ("video_id", .jstr "v200")]

/-- Environment whose batched adimages call resolves with one entry for
hash h1, used as witness input for the batch resolver. -/
def batchWitnessEnv : Env :=
  { creativeObj := fun _ => .error ⟨none, "unused"⟩,
    videoObj := fun _ => .error ⟨none, "unused"⟩,
    adimages := fun _ => .ok (.jobj [("data", .jarr
      [.jobj [("hash", .jstr "h1"), ("url", .jstr "u1")]])]),
    previews := fun _ => .error ⟨none, "unused"⟩ }

/-- Thumbnail variant that is wider but tiny in area. -/
def thumbVariantWide : JValue :=
  .jobj [("uri", .jstr "u1"), ("width", .jnum 100), ("height", .jnum 1)]

/-- Thumbnail variant that is narrower but far larger in area. -/
def thumbVariantTall : JValue :=
  .jobj [("uri", .jstr "u2"), ("width", .jnum 50), ("height", .jnum 300)]

/-- Video response offering the two thumbnail variants, no scales. -/
def videoResponseTwoThumbs : JValue :=
  .jobj [("source", .jstr "src"), ("picture", .jstr "p0"),
    ("thumbnails", .jobj [("data", .jarr [thumbVariantWide, thumbVariantTall])])]

/-- Environment resolving video v1 with the two-thumbnail response. -/
def thumbWitnessEnv : Env :=
  { creativeObj := fun _ => .error ⟨none, "unused"⟩,
    videoObj := fun _ => .ok videoResponseTwoThumbs,
    adimages := fun _ => .error ⟨none, "unused"⟩,
    previews := fun _ => .error ⟨none, "unused"⟩ }

/-- Concrete static-video payload: creative c1 whose object story video
data references video v1. -/
def staticVideoPayload : JValue :=
  .jobj [("id", .jstr "c1"),
    ("object_story_spec", .jobj [("video_data", .jobj [("video_id", .jstr "v1")])])]

/-- Environment whose video endpoint rejects with the permission error
code 10 and whose previews endpoint serves one iframe fragment. -/
def permissionWitnessEnv : Env :=
  { creativeObj := fun _ => .error ⟨none, "unused"⟩,
    videoObj := fun _ => .error ⟨some 10, "permission denied"⟩,
    adimages := fun _ => .error ⟨none, "unused"⟩,
    previews := fun _ => .ok (.jobj [("data", .jarr
      [.jobj [("body", .jstr "IFRAME")]])]) }

/-- Stored creative record used as witness input: a static video
creative fetched at time 0. -/
def witnessRecord : ParsedCreative :=
  { creativeId := .jstr "c1", adAccountId := "act", name := .jnull,
    primaryText := .jnull, headline := .jnull, description := .jnull, body := .jnull,
    thumbnailUrl := .jnull, childAttachments := [], callToAction := .jnull,
    creativeMode := .STATIC, mediaType := .VIDEO, imageHashes := [], imageUrls := [],
    videoIds := [.jstr "v1"], videoUrls := [], previewIframe := [],
    objectStorySpec := .jobj [], rawData := .jnull, lastFetchedAt := 0 }

/-- Store holding exactly the witness record under id c1. -/
def witnessStore : Store := [("c1", witnessRecord)]

/-- Minimal creative payload carrying only an id. -/
def simpleCreativePayload : JValue := .jobj [("id", .jstr "c1")]

/-- The record parseCreativeData builds from the minimal payload at
time 5 (no media, classified STATIC and IMAGE). -/
def simpleParsedRecord : ParsedCreative :=
  { creativeId := .jstr "c1", adAccountId := "act", name := .jnull,
    primaryText := .jnull, headline := .jnull, description := .jnull, body := .jnull,
    thumbnailUrl := .jnull, childAttachments := [], callToAction := .jnull,
    creativeMode := .STATIC, mediaType := .IMAGE, imageHashes := [], imageUrls := [],
    videoIds := [], videoUrls := [], previewIframe := [],
    objectStorySpec := .jobj [], rawData := simpleCreativePayload, lastFetchedAt := 5 }

/-- Environment whose creative endpoint serves the minimal payload. -/
def fetchWitnessEnv : Env :=
  { creativeObj := fun _ => .ok simpleCreativePayload,
    videoObj := fun _ => .error ⟨none, "unused"⟩,
    adimages := fun _ => .error ⟨none, "unused"⟩,
    previews := fun _ => .error ⟨none, "unused"⟩ }

/-- Environment whose creative endpoint rejects every fetch. -/
def failWitnessEnv : Env :=
  { creativeObj := fun _ => .error ⟨none, "boom"⟩,
    videoObj := fun _ => .error ⟨none, "unused"⟩,
    adimages := fun _ => .error ⟨none, "unused"⟩,
    previews := fun _ => .error ⟨none, "unused"⟩ }

/-- Payload whose carousel slot value is a truthy non-array: the
media-type derivation calls .some on it and throws. -/
def malformedSlotsPayload : JValue :=
  .jobj [("object_story_spec", .jobj [("link_data",
    .jobj [("child_attachments", .jstr "ab")])])]

/-! ## General evaluation lemmas for the embedded JavaScript semantics -/

theorem jgetOpt_eq_getField (v : JValue) (k : String) : jgetOpt v k = getField v k := by
  cases v <;> rfl

theorem jget_ok {p : JValue} (hp : p ≠ .jnull) (k : String) :
    jget p k = .ok (getField p k) := by
  cases p with
  | jnull => exact absurd rfl hp
  | jbool b => rfl
  | jnum n => rfl
  | jstr s => rfl
  | jarr xs => rfl
  | jobj fs => rfl

theorem isArr_exists {v : JValue} (h : isArr v = true) : ∃ xs, v = .jarr xs := by
  cases v <;> simp [isArr] at h ⊢

theorem isObj_exists {v : JValue} (h : isObj v = true) : ∃ fs, v = .jobj fs := by
  cases v <;> simp [isObj] at h ⊢

theorem carouselSlots_eq (p : JValue) :
    carouselSlots p = (match carouselField p with
      | .jarr xs => xs
      | _ => []) := rfl

theorem jsSomeField_total {xs : List JValue} {k : String} (h : ∀ x ∈ xs, x ≠ .jnull) :
    jsSomeField xs k = .ok (xs.any (fun x => truthy (getField x k))) := by
  induction xs with
  | nil => rfl
  | cons x xs ih =>
    have hx : x ≠ .jnull := h x (by simp)
    have ht : ∀ y ∈ xs, y ≠ .jnull := fun y hy => h y (by simp [hy])
    rw [jsSomeField, if_neg hx]
    by_cases hc : truthy (getField x k) = true
    · simp [hc]
    · simp only [Bool.not_eq_true] at hc
      simp [hc, ih ht]

/-- The classifier evaluated past the two payload reads: for a
non-nullish payload it settles on the value of the embedded decision
chain. -/
theorem determineCreativeMode_eq {p : JValue} (hp : p ≠ .jnull) :
    determineCreativeMode p =
      .ok (if truthy (carouselField p) &&
            jsGT (getField (carouselField p) "length") (.jnum 1) then .STATIC_CAROUSEL
        else if truthy (assetFeedField p "products") then .DYNAMIC_CATALOG
        else if truthy (assetFeedField p "images") ||
            truthy (assetFeedField p "videos") then .DYNAMIC_ASSET_FEED
        else .STATIC) := by
  cases p <;> first
    | exact absurd rfl hp
    | (simp only [determineCreativeMode, jget, jgetOpt, carouselField, assetFeedField,
        Except.bind, bind, pure]
       split_ifs <;> rfl)

set_option maxHeartbeats 2000000 in
/-- The media-type derivation for a non-nullish payload, unfolded to the
sequential short-circuit evaluation of hasImages and hasVideos. -/
theorem determineMediaType_eq {p : JValue} (hp : p ≠ .jnull) (m : CreativeMode) :
    determineMediaType p m = (do
      let hasImages ←
        if truthy (getField p "image_url") then pure true
        else if truthy (assetFeedField p "images") &&
            jsGT (getField (assetFeedField p "images") "length") (.jnum 0) then pure true
        else if truthy (carouselField p) then jsSomeFieldOn (carouselField p) "image_hash"
        else pure false
      let hasVideos ←
        if truthy (getField p "video_id") then pure true
        else if truthy (videoDataField p "video_id") then pure true
        else if truthy (assetFeedField p "videos") &&
            jsGT (getField (assetFeedField p "videos") "length") (.jnum 0) then pure true
        else if truthy (carouselField p) then jsSomeFieldOn (carouselField p) "video_id"
        else pure false
      if hasImages && hasVideos then pure MediaType.MIXED
      else if hasVideos then pure MediaType.VIDEO
      else pure MediaType.IMAGE : Except Unit MediaType) := by
  cases p <;> first
    | exact absurd rfl hp
    | (simp only [determineMediaType, jget, jgetOpt, carouselField, assetFeedField,
        videoDataField, Except.bind, bind, pure])

/-! ## C1: ordered assembly-mode rules -/

/-- C1: for every list-shaped raw creative payload the classifier
assigns the assembly mode by the ordered first-match rule list
STATIC_CAROUSEL (more than one carousel slot), DYNAMIC_CATALOG (catalog
descriptor present), DYNAMIC_ASSET_FEED (asset feed carries an images or
videos list), STATIC (otherwise); in particular any payload with more
than one carousel slot classifies as STATIC_CAROUSEL regardless of the
other fields. -/
theorem claim1_assembly_mode_rule_order (p : JValue) (h : ListShaped p) :
    determineCreativeMode p = .ok (specAssemblyMode p) ∧
    (specManySlots p → determineCreativeMode p = .ok .STATIC_CAROUSEL) := by
  obtain ⟨hp, hca, hprod, himg, hvid⟩ := h
  have h1 : (truthy (carouselField p) &&
      jsGT (getField (carouselField p) "length") (.jnum 1)) = true ↔ specManySlots p := by
    rcases hca with hca | hca
    · simp [hca, truthy, specManySlots, carouselSlots_eq]
    · obtain ⟨xs, e⟩ := isArr_exists hca
      simp [specManySlots, carouselSlots_eq, e, truthy, getField, jsGT, toNum]
  have h2 : truthy (assetFeedField p "products") = true ↔ specCatalogPresent p := by
    unfold specCatalogPresent
    rcases hprod with hh | hh | hh
    · simp [hh, truthy]
    · obtain ⟨xs, e⟩ := isArr_exists hh
      simp [e, truthy]
    · obtain ⟨fs, e⟩ := isObj_exists hh
      simp [e, truthy]
  have h3 : (truthy (assetFeedField p "images") ||
      truthy (assetFeedField p "videos")) = true ↔ specAssetFeedMedia p := by
    unfold specAssetFeedMedia
    constructor
    · intro hh
      rcases Bool.or_eq_true_iff.mp hh with hh | hh
      · left; intro he; rw [he] at hh; exact Bool.noConfusion hh
      · right; intro he; rw [he] at hh; exact Bool.noConfusion hh
    · intro hh
      rcases hh with hh | hh
      · rcases himg with he | he
        · exact absurd he hh
        · obtain ⟨xs, e⟩ := isArr_exists he
          simp [e, truthy]
      · rcases hvid with he | he
        · exact absurd he hh
        · obtain ⟨xs, e⟩ := isArr_exists he
          simp [e, truthy]
  have hmode := determineCreativeMode_eq hp
  constructor
  · rw [hmode]
    unfold specAssemblyMode
    split_ifs with a1 a2 a3 <;> simp_all
  · intro hm
    rw [hmode]
    simp [h1.mpr hm]

/-- Witness for C1: the two-slot carousel payload is list shaped and the
theorem applies to it. -/
theorem claim1_witness :
    ListShaped carouselPayload ∧
    (determineCreativeMode carouselPayload = .ok (specAssemblyMode carouselPayload) ∧
      (specManySlots carouselPayload →
        determineCreativeMode carouselPayload = .ok .STATIC_CAROUSEL)) :=
  ⟨by decide, claim1_assembly_mode_rule_order carouselPayload (by decide)⟩

/-! ## C2: derived media type -/

set_option maxHeartbeats 2000000 in
/-- C2: for every well-shaped payload the derived media type is MIXED
exactly when an image-bearing and a video-bearing reference are both
detected, VIDEO exactly when only a video-bearing reference is detected,
and IMAGE exactly otherwise (including payloads with no media reference
at all). -/
theorem claim2_media_type (p : JValue) (m : CreativeMode) (h : WellShapedPayload p) :
    ∃ t, determineMediaType p m = .ok t ∧
      (t = .MIXED ↔ (specImageBearing p = true ∧ specVideoBearing p = true)) ∧
      (t = .VIDEO ↔ (specVideoBearing p = true ∧ specImageBearing p = false)) ∧
      (t = .IMAGE ↔ specVideoBearing p = false) := by
  obtain ⟨⟨hp, hca, hprod, himg, hvid⟩, hslots⟩ := h
  have himg3 : assetFeedField p "images" = .jnull ∨ assetFeedField p "images" = .jarr [] ∨
      ∃ y ys, assetFeedField p "images" = .jarr (y :: ys) := by
    rcases himg with h | h
    · exact Or.inl h
    · obtain ⟨xs, e⟩ := isArr_exists h
      cases xs with
      | nil => exact Or.inr (Or.inl e)
      | cons y ys => exact Or.inr (Or.inr ⟨y, ys, e⟩)
  have hvid3 : assetFeedField p "videos" = .jnull ∨ assetFeedField p "videos" = .jarr [] ∨
      ∃ y ys, assetFeedField p "videos" = .jarr (y :: ys) := by
    rcases hvid with h | h
    · exact Or.inl h
    · obtain ⟨xs, e⟩ := isArr_exists h
      cases xs with
      | nil => exact Or.inr (Or.inl e)
      | cons y ys => exact Or.inr (Or.inr ⟨y, ys, e⟩)
  have hca2 : carouselField p = .jnull ∨ ∃ xs, carouselField p = .jarr xs :=
    hca.imp id (fun h => isArr_exists h)
  have heval : determineMediaType p m =
      .ok (if specImageBearing p && specVideoBearing p then .MIXED
        else if specVideoBearing p then .VIDEO else .IMAGE) := by
    rw [determineMediaType_eq hp m]
    rcases hca2 with eca | ⟨cxs, eca⟩
    · rcases himg3 with eimg | eimg | ⟨iy, iys, eimg⟩ <;>
      rcases hvid3 with evid | evid | ⟨vy, vys, evid⟩ <;>
      cases hA1 : truthy (getField p "image_url") <;>
      cases hV1 : truthy (getField p "video_id") <;>
      cases hV2 : truthy (videoDataField p "video_id") <;>
        simp_all [specImageBearing, specVideoBearing, carouselSlots_eq,
          jgetOpt_eq_getField, truthy, getField, jsGT, toNum, bind, Except.bind, pure,
          Except.pure]
    · have hs9 : ∀ x ∈ cxs, x ≠ .jnull := by
        have h2 := hslots
        rw [carouselSlots_eq, eca] at h2
        exact h2
      rcases himg3 with eimg | eimg | ⟨iy, iys, eimg⟩ <;>
      rcases hvid3 with evid | evid | ⟨vy, vys, evid⟩ <;>
      cases hA1 : truthy (getField p "image_url") <;>
      cases hV1 : truthy (getField p "video_id") <;>
      cases hV2 : truthy (videoDataField p "video_id") <;>
        (simp_all [specImageBearing, specVideoBearing, carouselSlots_eq,
          jgetOpt_eq_getField, truthy, getField, jsGT, toNum, bind, Except.bind, pure,
          Except.pure, jsSomeFieldOn, jsSomeField_total hs9]
         try (split_ifs <;> rfl))
  refine ⟨_, heval, ?_, ?_, ?_⟩ <;>
    cases hI : specImageBearing p <;> cases hV : specVideoBearing p <;> simp [hI, hV]

/-- Witness for C2: the payload with both a direct image and a direct
video reference is well shaped and the theorem applies to it. -/
theorem claim2_witness :
    WellShapedPayload mixedPayload ∧
    (∃ t, determineMediaType mixedPayload .STATIC = .ok t ∧
      (t = .MIXED ↔ (specImageBearing mixedPayload = true ∧
        specVideoBearing mixedPayload = true)) ∧
      (t = .VIDEO ↔ (specVideoBearing mixedPayload = true ∧
        specImageBearing mixedPayload = false)) ∧
      (t = .IMAGE ↔ specVideoBearing mixedPayload = false)) :=
  ⟨by decide, claim2_media_type mixedPayload .STATIC (by decide)⟩

/-! ## C9: totality of the classifier (corrected) -/

/-- C9 counterexample: on the payload whose carousel slot value is the
truthy non-array string ab, deriving the media type throws (the .some
call is applied to a value without the method), refuting the claim that
the derivation never throws on malformed sub-structures. -/
theorem claim9_counterexample :
    determineMediaType malformedSlotsPayload .STATIC = .error () := rfl

set_option maxHeartbeats 2000000 in
/-- C9 amended: deriving the assembly mode never throws for a
non-nullish payload, and deriving the media type never throws provided
the carousel slot value, when truthy, is an array of non-nullish
entries; absent or otherwise malformed sub-structures degrade without an
error. -/
theorem claim9_no_throw (p : JValue) (m : CreativeMode) (hp : p ≠ .jnull)
    (hs : SafeSlots p) :
    (∃ mo, determineCreativeMode p = .ok mo) ∧
    (∃ t, determineMediaType p m = .ok t) := by
  constructor
  · exact ⟨_, determineCreativeMode_eq hp⟩
  · rw [determineMediaType_eq hp m]
    by_cases hc : truthy (carouselField p) = true
    · obtain ⟨ha, hnn⟩ := hs hc
      obtain ⟨xs, e⟩ := isArr_exists ha
      have hs9 : ∀ x ∈ xs, x ≠ .jnull := by
        have h2 := hnn
        rw [carouselSlots_eq, e] at h2
        exact h2
      simp only [e, jsSomeFieldOn, jsSomeField_total hs9, bind, Except.bind, pure,
        Except.pure]
      split_ifs <;> exact ⟨_, rfl⟩
    · simp only [Bool.not_eq_true] at hc
      simp only [hc, Bool.false_eq_true, if_false, bind, Except.bind, pure, Except.pure]
      split_ifs <;> exact ⟨_, rfl⟩

/-- Witness for the amended C9 at the mixed payload. -/
theorem claim9_witness :
    mixedPayload ≠ .jnull ∧ SafeSlots mixedPayload ∧
    ((∃ mo, determineCreativeMode mixedPayload = .ok mo) ∧
     (∃ t, determineMediaType mixedPayload .STATIC = .ok t)) :=
  ⟨by decide, by decide, claim9_no_throw mixedPayload .STATIC (by decide) (by decide)⟩

/-! ## C5: batched hash resolution -/

theorem jsEq_jstr {a : String} {v : JValue} (h : jsEq (.jstr a) v = true) : v = .jstr a := by
  cases v <;> simp [jsEq] at h ⊢
  exact h.symm

theorem nodup_subset_length_le {α : Type} [DecidableEq α] {l l2 : List α}
    (h : l.Nodup) (hs : l ⊆ l2) : l.length ≤ l2.length := by
  calc l.length = l.toFinset.card := (List.toFinset_card_of_nodup h).symm
    _ ≤ l2.toFinset.card := Finset.card_le_card (fun a ha => by
        rw [List.mem_toFinset] at ha ⊢; exact hs ha)
    _ ≤ l2.length := List.toFinset_card_le l2

/-- Every entry the batch collection keeps carries a hash that matched
one of the requested hashes. -/
theorem collectBatch_hash_mem {hashes xs : List JValue} {r : ImgResult}
    (h : r ∈ collectBatch hashes xs) : ∃ hv ∈ hashes, jsEq hv r.hash = true := by
  induction xs with
  | nil => simp [collectBatch] at h
  | cons x txs ih =>
    rw [collectBatch] at h
    by_cases h1 : (truthy (jgetOpt x "hash") &&
        hashes.any (fun hh => jsEq hh (jgetOpt x "hash"))) = true
    · rw [if_pos h1] at h
      by_cases h2 : truthy (pickImageUrl x) = true
      · rw [if_pos h2] at h
        rcases List.mem_cons.mp h with he | ht
        · obtain ⟨hv, hmem, heq⟩ := List.any_eq_true.mp (Bool.and_elim_right h1)
          exact ⟨hv, hmem, by rw [he]; exact heq⟩
        · exact ih ht
      · rw [if_neg h2] at h; exact ih h
    · rw [if_neg h1] at h; exact ih h

/-- The hashes of the collected entries form a sublist of the hash
fields of the response entries, hence keep their distinctness. -/
theorem collectBatch_hashes_sublist (hashes xs : List JValue) :
    ((collectBatch hashes xs).map (fun r => r.hash)).Sublist
      (xs.map (fun x => jgetOpt x "hash")) := by
  induction xs with
  | nil => simp [collectBatch]
  | cons x txs ih =>
    rw [collectBatch]
    by_cases h1 : (truthy (jgetOpt x "hash") &&
        hashes.any (fun hh => jsEq hh (jgetOpt x "hash"))) = true
    · rw [if_pos h1]
      by_cases h2 : truthy (pickImageUrl x) = true
      · rw [if_pos h2]
        simpa using List.Sublist.cons₂ (jgetOpt x "hash") ih
      · rw [if_neg h2]
        simpa using List.Sublist.cons (jgetOpt x "hash") ih
    · rw [if_neg h1]
      simpa using List.Sublist.cons (jgetOpt x "hash") ih

/-- The sequential fallback is exactly one single-hash lookup per input
hash, keeping the successes, with one network call group per hash. -/
theorem batchFallback_eq (env : Env) (l : List JValue) :
    batchFallback env l =
      (l.filterMap (fun h =>
        let info := (fetchImageUrlFromHash h env).1
        if truthy info.url then some ⟨info.url, h, info.width, info.height⟩ else none),
       l.flatMap (fun h => (fetchImageUrlFromHash h env).2)) := by
  induction l with
  | nil => rfl
  | cons h hs ih =>
    rw [batchFallback, ih]
    by_cases hu : truthy (fetchImageUrlFromHash h env).1.url = true
    · simp [hu, List.filterMap_cons]
    · simp only [Bool.not_eq_true] at hu
      simp [hu, List.filterMap_cons]

/-- C5: batched resolution of a list of unique string hashes returns at
most one result per input hash (under a hash-unambiguous response), each
result hash drawn from the input list, and on batch failure falls back
to one sequential single-hash lookup per input, keeping only the
successes. -/
theorem claim5_batch_resolution (hs : List String) (env : Env)
    (hnodup : hs.Nodup)
    (hresp : respHashesNodupB (env.adimages (hs.map JValue.jstr)) = true) :
    (∀ r ∈ (fetchImageUrlsFromHashes (hs.map JValue.jstr) env).1,
      r.hash ∈ hs.map JValue.jstr) ∧
    (fetchImageUrlsFromHashes (hs.map JValue.jstr) env).1.length ≤ hs.length ∧
    (∀ e, env.adimages (hs.map JValue.jstr) = .error e → hs ≠ [] →
      fetchImageUrlsFromHashes (hs.map JValue.jstr) env =
        ((hs.map JValue.jstr).filterMap (fun h =>
          let info := (fetchImageUrlFromHash h env).1
          if truthy info.url then some ⟨info.url, h, info.width, info.height⟩ else none),
         Eff.netAdimages (hs.map JValue.jstr) ::
           (hs.map JValue.jstr).flatMap (fun h => (fetchImageUrlFromHash h env).2))) := by
  by_cases hemp : hs = []
  · subst hemp
    refine ⟨?_, ?_, ?_⟩
    · intro r hr
      simp [fetchImageUrlsFromHashes] at hr
    · simp [fetchImageUrlsFromHashes]
    · intro e _ hne
      exact absurd rfl hne
  · have hne : (hs.map JValue.jstr).isEmpty = false := by
      simp [List.isEmpty_iff, hemp]
    cases hr : env.adimages (hs.map JValue.jstr) with
    | error e =>
      have heq : fetchImageUrlsFromHashes (hs.map JValue.jstr) env =
          ((batchFallback env (hs.map JValue.jstr)).1,
            Eff.netAdimages (hs.map JValue.jstr) ::
              (batchFallback env (hs.map JValue.jstr)).2) := by
        simp [fetchImageUrlsFromHashes, hne, hr]
      rw [batchFallback_eq] at heq
      have h1 : (fetchImageUrlsFromHashes (hs.map JValue.jstr) env).1 =
          (hs.map JValue.jstr).filterMap (fun h =>
            let info := (fetchImageUrlFromHash h env).1
            if truthy info.url then
              some (⟨info.url, h, info.width, info.height⟩ : ImgResult)
            else none) := by
        rw [heq]
      refine ⟨?_, ?_, ?_⟩
      · intro r hrr
        rw [h1] at hrr
        obtain ⟨a, hmem, hsome⟩ := List.mem_filterMap.mp hrr
        by_cases hu : truthy (fetchImageUrlFromHash a env).1.url = true
        · simp only [hu, if_pos] at hsome
          have hha : r.hash = a := by
            cases hsome
            rfl
          rw [hha]
          exact hmem
        · simp only [Bool.not_eq_true] at hu
          simp [hu] at hsome
      · rw [h1]
        calc ((hs.map JValue.jstr).filterMap _).length ≤ (hs.map JValue.jstr).length :=
              List.length_filterMap_le _ _
          _ = hs.length := List.length_map _ _
      · intro e2 _ _
        rw [heq]
    | ok resp =>
      refine ⟨?_, ?_, ?_⟩
      · intro r hrr
        cases hd : jgetOpt resp "data" with
        | jarr xs =>
          have h1 : (fetchImageUrlsFromHashes (hs.map JValue.jstr) env).1 =
              collectBatch (hs.map JValue.jstr) xs := by
            simp [fetchImageUrlsFromHashes, hne, hr, hd]
          rw [h1] at hrr
          obtain ⟨hv, hmem, heq2⟩ := collectBatch_hash_mem hrr
          obtain ⟨a, _, ha⟩ := List.mem_map.mp hmem
          rw [← ha] at heq2
          rw [jsEq_jstr heq2]
          rw [← ha] at hmem
          exact hmem
        | jnull =>
          simp [fetchImageUrlsFromHashes, hne, hr, hd] at hrr
        | jbool b =>
          simp [fetchImageUrlsFromHashes, hne, hr, hd] at hrr
        | jnum n =>
          simp [fetchImageUrlsFromHashes, hne, hr, hd] at hrr
        | jstr st =>
          simp [fetchImageUrlsFromHashes, hne, hr, hd] at hrr
        | jobj fs =>
          simp [fetchImageUrlsFromHashes, hne, hr, hd] at hrr
      · cases hd : jgetOpt resp "data" with
        | jarr xs =>
          have h1 : (fetchImageUrlsFromHashes (hs.map JValue.jstr) env).1 =
              collectBatch (hs.map JValue.jstr) xs := by
            simp [fetchImageUrlsFromHashes, hne, hr, hd]
          rw [h1]
          have hnd : ((collectBatch (hs.map JValue.jstr) xs).map
              (fun r => r.hash)).Nodup := by
            refine List.Sublist.nodup (collectBatch_hashes_sublist _ _) ?_
            have h3 := hresp
            rw [hr] at h3
            simp only [respHashesNodupB, hd, decide_eq_true_eq] at h3
            exact h3
          have hsub : ∀ v ∈ (collectBatch (hs.map JValue.jstr) xs).map
              (fun r => r.hash), v ∈ hs.map JValue.jstr := by
            intro v hv
            obtain ⟨r, hrmem, hrv⟩ := List.mem_map.mp hv
            obtain ⟨hv2, hmem2, heq2⟩ := collectBatch_hash_mem hrmem
            obtain ⟨a, _, ha⟩ := List.mem_map.mp hmem2
            rw [← ha] at heq2
            rw [← hrv, jsEq_jstr heq2]
            rw [← ha] at hmem2
            exact hmem2
          have hlen := nodup_subset_length_le hnd hsub
          rw [List.length_map] at hlen
          calc (collectBatch (hs.map JValue.jstr) xs).length
              ≤ (hs.map JValue.jstr).length := hlen
            _ = hs.length := List.length_map _ _
        | jnull =>
          simp [fetchImageUrlsFromHashes, hne, hr, hd]
        | jbool b =>
          simp [fetchImageUrlsFromHashes, hne, hr, hd]
        | jnum n =>
          simp [fetchImageUrlsFromHashes, hne, hr, hd]
        | jstr st =>
          simp [fetchImageUrlsFromHashes, hne, hr, hd]
        | jobj fs =>
          simp [fetchImageUrlsFromHashes, hne, hr, hd]
      · intro e2 he2 _
        exact Except.noConfusion he2

/-- Witness for C5 with two distinct hashes against the environment
whose batch resolves one of them. -/
theorem claim5_witness :
    (["h1", "h2"] : List String).Nodup ∧
    respHashesNodupB (batchWitnessEnv.adimages (["h1", "h2"].map JValue.jstr)) = true ∧
    ((∀ r ∈ (fetchImageUrlsFromHashes (["h1", "h2"].map JValue.jstr) batchWitnessEnv).1,
      r.hash ∈ ["h1", "h2"].map JValue.jstr) ∧
    (fetchImageUrlsFromHashes (["h1", "h2"].map JValue.jstr) batchWitnessEnv).1.length ≤
      (["h1", "h2"] : List String).length ∧
    (∀ e, batchWitnessEnv.adimages (["h1", "h2"].map JValue.jstr) = .error e →
      (["h1", "h2"] : List String) ≠ [] →
      fetchImageUrlsFromHashes (["h1", "h2"].map JValue.jstr) batchWitnessEnv =
        ((["h1", "h2"].map JValue.jstr).filterMap (fun h =>
          let info := (fetchImageUrlFromHash h batchWitnessEnv).1
          if truthy info.url then some ⟨info.url, h, info.width, info.height⟩ else none),
         Eff.netAdimages (["h1", "h2"].map JValue.jstr) ::
           (["h1", "h2"].map JValue.jstr).flatMap
             (fun h => (fetchImageUrlFromHash h batchWitnessEnv).2)))) :=
  ⟨by decide, by decide,
    claim5_batch_resolution ["h1", "h2"] batchWitnessEnv (by decide) (by decide)⟩

/-! ## C8: thumbnail selection (corrected) -/

theorem thumbKey_ok {t : JValue} (h : t ≠ .jnull) : thumbKey t = .ok (thumbKeyVal t) := by
  cases t with
  | jnull => exact absurd rfl h
  | jbool b => rfl
  | jnum n => rfl
  | jstr s => rfl
  | jarr xs => rfl
  | jobj fs => rfl

theorem jsGT_num {a b : JValue} {x y : Int} (ha : toNum a = some x) (hb : toNum b = some y) :
    jsGT a b = decide (x > y) := by
  simp [jsGT, ha, hb]

/-- The reduce of fetchVideoDetails settles on a variant whose key
(scale or width) no other variant exceeds, keeping the earlier variant
on ties. -/
theorem reduceLargest_max (l : List JValue) (acc : JValue)
    (hacc : acc ≠ .jnull ∧ (toNum (thumbKeyVal acc)).isSome = true)
    (hl : ∀ t ∈ l, t ≠ .jnull ∧ (toNum (thumbKeyVal t)).isSome = true) :
    ∃ t, reduceLargest acc l = .ok t ∧ (t = acc ∨ t ∈ l) ∧
      keyNum acc ≤ keyNum t ∧ ∀ u ∈ l, keyNum u ≤ keyNum t := by
  induction l generalizing acc with
  | nil => exact ⟨acc, rfl, Or.inl rfl, le_refl _, by simp⟩
  | cons c cs ih =>
    obtain ⟨haccn, hasome⟩ := hacc
    obtain ⟨hcn, hcsome⟩ := hl c (by simp)
    obtain ⟨na, hna⟩ := Option.isSome_iff_exists.mp hasome
    obtain ⟨nc, hnc⟩ := Option.isSome_iff_exists.mp hcsome
    have hcs : ∀ t ∈ cs, t ≠ .jnull ∧ (toNum (thumbKeyVal t)).isSome = true :=
      fun t ht => hl t (by simp [ht])
    have hstep : reduceLargest acc (c :: cs) =
        reduceLargest (if jsGT (thumbKeyVal c) (thumbKeyVal acc) then c else acc) cs := by
      rw [reduceLargest]
      simp [thumbKey_ok haccn, thumbKey_ok hcn, bind, Except.bind]
    by_cases hgt : jsGT (thumbKeyVal c) (thumbKeyVal acc) = true
    · rw [hstep, if_pos hgt]
      obtain ⟨t, hred, hmem, hkey, hall⟩ := ih c ⟨hcn, hcsome⟩ hcs
      have hca : keyNum acc ≤ keyNum c := by
        rw [jsGT_num hnc hna] at hgt
        have h2 := of_decide_eq_true hgt
        unfold keyNum
        rw [hna, hnc]
        simp
        omega
      refine ⟨t, hred, ?_, le_trans hca hkey, ?_⟩
      · rcases hmem with h | h
        · exact Or.inr (by simp [h])
        · exact Or.inr (by simp [h])
      · intro u hu
        rcases List.mem_cons.mp hu with h | h
        · rw [h]; exact hkey
        · exact hall u h
    · rw [hstep, if_neg hgt]
      obtain ⟨t, hred, hmem, hkey, hall⟩ := ih acc ⟨haccn, hasome⟩ hcs
      have hca : keyNum c ≤ keyNum acc := by
        rw [jsGT_num hnc hna] at hgt
        have h2 : ¬ (nc > na) := by
          intro h3
          exact hgt (decide_eq_true h3)
        unfold keyNum
        rw [hna, hnc]
        simp
        omega
      refine ⟨t, hred, ?_, hkey, ?_⟩
      · rcases hmem with h | h
        · exact Or.inl h
        · exact Or.inr (by simp [h])
      · intro u hu
        rcases List.mem_cons.mp hu with h | h
        · rw [h]; exact le_trans hca hkey
        · exact hall u h

/-- C8 counterexample: on a response with two scale-free thumbnail
variants of widths 100x1 and 50x300, the code returns the uri of the
100x1 variant (larger width), while no reading of the claim (largest by
area, or largest by a reported scale) selects it. -/
theorem claim8_counterexample :
    (fetchVideoDetails "v1" thumbWitnessEnv).1 =
      some (objSetField videoResponseTwoThumbs "picture" (.jstr "u1")) ∧
    ¬ specLargestByAreaOrScale [thumbVariantWide, thumbVariantTall] (.jstr "u1") :=
  ⟨rfl, by decide⟩

/-- C8 amended: for every successful video resolution whose response
offers thumbnail variants with numeric keys, the thumbnail kept is the
uri of a variant maximizing the reported scale, or the width when no
scale is reported (0 when neither is), keeping the earlier variant on
ties, with the original picture as fallback when that variant has no
uri. -/
theorem claim8_thumbnail_largest_key (videoId : String) (env : Env)
    (videoData y : JValue) (ys : List JValue)
    (hv : env.videoObj videoId = .ok videoData)
    (hnn : videoData ≠ .jnull)
    (hsrc : isStr (getField videoData "source") = true ∨
      truthy (getField videoData "source") = false)
    (hth : jgetOpt (getField videoData "thumbnails") "data" = .jarr (y :: ys))
    (hkeys : ∀ t ∈ y :: ys, t ≠ .jnull ∧ (toNum (thumbKeyVal t)).isSome = true) :
    ∃ t, (t = y ∨ t ∈ ys) ∧ (∀ u ∈ y :: ys, keyNum u ≤ keyNum t) ∧
      (fetchVideoDetails videoId env).1 =
        some (objSetField videoData "picture"
          (jor (getField t "uri") (getField videoData "picture"))) := by
  obtain ⟨t, hred, hmem, hkey, hall⟩ := reduceLargest_max ys y (hkeys y (by simp))
    (fun u hu => hkeys u (by simp [hu]))
  refine ⟨t, hmem, ?_, ?_⟩
  · intro u hu
    rcases List.mem_cons.mp hu with h | h
    · rw [h]; exact hkey
    · exact hall u h
  · have hcond : (truthy (getField videoData "source") = true ∧
        isStr (getField videoData "source") = false) → False := by
      rintro ⟨h1, h2⟩
      rcases hsrc with h | h
      · rw [h] at h2; exact Bool.noConfusion h2
      · rw [h] at h1; exact Bool.noConfusion h1
    have hlen : jsGT (jgetOpt (jgetOpt (getField videoData "thumbnails") "data")
        "length") (.jnum 0) = true := by
      rw [hth]
      simp [jgetOpt, getField, jsGT, toNum]
    simp only [fetchVideoDetails, hv, if_neg hnn, hth, hlen, if_pos, if_true,
      if_neg hcond, hred]
    simp [jgetOpt, getField, jsGT, toNum]

/-- Witness for the amended C8 at the two-thumbnail response: the chosen
variant maximizes the width key and its uri is kept. -/
theorem claim8_witness :
    thumbWitnessEnv.videoObj "v1" = .ok videoResponseTwoThumbs ∧
    videoResponseTwoThumbs ≠ .jnull ∧
    (isStr (getField videoResponseTwoThumbs "source") = true ∨
      truthy (getField videoResponseTwoThumbs "source") = false) ∧
    jgetOpt (getField videoResponseTwoThumbs "thumbnails") "data" =
      .jarr (thumbVariantWide :: [thumbVariantTall]) ∧
    (∀ t ∈ thumbVariantWide :: [thumbVariantTall],
      t ≠ .jnull ∧ (toNum (thumbKeyVal t)).isSome = true) ∧
    (∃ t, (t = thumbVariantWide ∨ t ∈ [thumbVariantTall]) ∧
      (∀ u ∈ thumbVariantWide :: [thumbVariantTall], keyNum u ≤ keyNum t) ∧
      (fetchVideoDetails "v1" thumbWitnessEnv).1 =
        some (objSetField videoResponseTwoThumbs "picture"
          (jor (getField t "uri") (getField videoResponseTwoThumbs "picture")))) :=
  ⟨rfl, by decide, Or.inl (by decide), rfl, by decide,
    claim8_thumbnail_largest_key "v1" thumbWitnessEnv videoResponseTwoThumbs
      thumbVariantWide [thumbVariantTall] rfl (by decide) (Or.inl (by decide))
      rfl (by decide)⟩

/-! ## C6: preview fragments only on failed video resolution -/

theorem except_bind_ok {ε α β : Type} {x : Except ε α} {f : α → Except ε β} {v : β}
    (h : x >>= f = .ok v) : ∃ w, x = .ok w ∧ f w = .ok v := by
  cases x with
  | error e => simp [Bind.bind, Except.bind] at h
  | ok w => exact ⟨w, rfl, by simpa [Bind.bind, Except.bind] using h⟩

/-- A video enrichment pass produces preview fragments only when it
produced no video url. -/
theorem enrichVideoMedia_previews (vid cid : JValue) (env : Env)
    (h : (enrichVideoMedia vid cid env).1.previewIframes ≠ []) :
    (enrichVideoMedia vid cid env).1.videoUrls = [] := by
  unfold enrichVideoMedia at h ⊢
  rcases hfd : fetchVideoDetails (jsToString vid) env with ⟨vd, l1⟩
  rw [hfd] at h
  cases vd with
  | none => simp
  | some d =>
    by_cases hs : truthy (getField d "source") = true
    · simp [hs] at h
    · simp only [Bool.not_eq_true] at hs
      simp [hs]

/-- The enrichment dispatch never pairs a non-empty preview fragment
list with a non-empty video url list. -/
theorem parseMediaDispatch_previews (creativeData assetFeedSpec : JValue)
    (childAttachments : List ChildAttachment)
    (videoId imageUrl imageHash : JValue) (creativeMode : CreativeMode) (env : Env)
    (tup : List JValue × List JValue × List JValue × List JValue × List String)
    (log : List Eff)
    (h : parseMediaDispatch creativeData assetFeedSpec childAttachments videoId
      imageUrl imageHash creativeMode env = .ok (tup, log))
    (hne : tup.2.2.2.2 ≠ []) : tup.2.2.1 = [] := by
  unfold parseMediaDispatch at h
  cases creativeMode with
  | DYNAMIC_ASSET_FEED =>
    simp only [if_pos rfl] at h
    by_cases hi : (truthy (getField assetFeedSpec "images") &&
        isArr (getField assetFeedSpec "images") &&
        jsGT (getField (getField assetFeedSpec "images") "length") (.jnum 0)) = true
    · rw [if_pos hi] at h
      cases hdy : enrichDynamicImages assetFeedSpec env with
      | error e => rw [hdy] at h; exact Except.noConfusion h
      | ok dyn =>
        rw [hdy] at h
        simp only [bind, Except.bind, pure, Except.pure] at h
        cases h
        rfl
    · rw [if_neg hi] at h
      simp only [pure, Except.pure] at h
      cases h
      rfl
  | STATIC =>
    simp only [reduceCtorEq, if_neg, if_pos rfl] at h
    by_cases hv : truthy videoId = true
    · rw [if_pos hv] at h
      simp only [pure, Except.pure] at h
      cases h
      exact enrichVideoMedia_previews videoId (getField creativeData "id") env hne
    · rw [if_neg hv] at h
      by_cases hu : truthy imageUrl = true
      · rw [if_pos hu] at h
        simp only [pure, Except.pure] at h
        cases h
        rfl
      · rw [if_neg hu] at h
        by_cases hh : truthy imageHash = true
        · rw [if_pos hh] at h
          simp only [pure, Except.pure] at h
          cases h
          rfl
        · rw [if_neg hh] at h
          simp only [pure, Except.pure] at h
          cases h
          rfl
  | STATIC_CAROUSEL =>
    by_cases hlen : 0 < childAttachments.length <;>
      (simp_all [pure, Except.pure]
       obtain ⟨h1, h2⟩ := h
       rw [← h1] at hne
       simp at hne)
  | DYNAMIC_CATALOG =>
    simp_all [pure, Except.pure]
    obtain ⟨h1, h2⟩ := h
    rw [← h1] at hne
    simp at hne

/-- A parsed record holds preview fragments only when it holds no video
url. -/
theorem parse_previews_inv (creativeData : JValue) (acct : String) (now : Nat)
    (env : Env) (pr : ParsedCreative) (log : List Eff)
    (h : parseCreativeData creativeData acct now env = .ok (pr, log))
    (hne : pr.previewIframe ≠ []) : pr.videoUrls = [] := by
  unfold parseCreativeData at h
  obtain ⟨oss0, h1, h⟩ := except_bind_ok h
  obtain ⟨afs0, h2, h⟩ := except_bind_ok h
  obtain ⟨mode, hm, h⟩ := except_bind_ok h
  obtain ⟨mt, ht, h⟩ := except_bind_ok h
  obtain ⟨childAts, hch, h⟩ := except_bind_ok h
  obtain ⟨mediaPair, hdp, h⟩ := except_bind_ok h
  rcases mediaPair with ⟨⟨iu, ih2, vu, vi, pv⟩, log1⟩
  simp only [pure, Except.pure] at h
  have h3 := Except.ok.inj h
  have hrec := congrArg Prod.fst h3
  simp only [] at hrec
  rw [← hrec] at hne ⊢
  have hne2 : pv ≠ [] := hne
  have hgoal : vu = [] :=
    parseMediaDispatch_previews _ _ _ _ _ _ _ _ _ _ hdp hne2
  exact hgoal

set_option maxHeartbeats 2000000 in
/-- The end-to-end permission scenario: a static payload whose single
video id rejects with the permission error while the previews endpoint
serves a fragment parses into videoIds v1, no video urls, and that one
fragment. -/
theorem parse_static_video_permission (acct : String) (now : Nat) (env : Env)
    (e : FbError) (frag : String)
    (hv : env.videoObj "v1" = .error e) (_hcode : e.code = some 10)
    (hpf : env.previews "c1" = .ok (.jobj [("data", .jarr [.jobj [("body", .jstr frag)]])]))
    (hfrag : frag ≠ "") :
    ∃ pr log, parseCreativeData staticVideoPayload acct now env = .ok (pr, log) ∧
      pr.videoIds = [.jstr "v1"] ∧ pr.videoUrls = [] ∧ pr.previewIframe = [frag] := by
  have hfd : fetchVideoDetails "v1" env = (none, [Eff.netVideo "v1"]) := by
    simp [fetchVideoDetails, hv]
  have hpv : fetchVideoPreviewIframe "c1" env = (some frag, [Eff.netPreviews "c1"]) := by
    simp [fetchVideoPreviewIframe, hpf, jgetOpt, getField, hfrag]
  have hev : enrichVideoMedia (.jstr "v1") (.jstr "c1") env =
      ({ videos := [], videoUrls := [], videoIds := [.jstr "v1"],
         previewIframes := [frag], thumbnailUrl := .jnull },
       [Eff.netVideo "v1", Eff.netPreviews "c1"]) := by
    simp [enrichVideoMedia, jsToString, hfd, hpv]
  simp +decide [parseCreativeData, staticVideoPayload, parseMediaDispatch,
    parseImageFallback, jget, jgetOpt, getField, jor, truthy, determineCreativeMode,
    determineMediaType, jsSomeFieldOn, extractChildAttachments, extractAssetFeedData,
    extractContentFields, jsToString, jsGT, toNum, keysLength, index0, jsEq, isArr,
    isStr, normalizeChild, bind, Except.bind, pure, Except.pure, List.lookup, hev,
    List.mapM, List.mapM.loop]

/-- C6: in every enrichment pass the stored preview fragments are
non-empty only when no video url was resolved for the known video ids of
the pass; and the concrete permission scenario yields videoIds v1,
empty videoUrls and one preview fragment. -/
theorem claim6_preview_fragments :
    (∀ (creativeData : JValue) (acct : String) (now : Nat) (env : Env)
      (pr : ParsedCreative) (log : List Eff),
      parseCreativeData creativeData acct now env = .ok (pr, log) →
      pr.previewIframe ≠ [] → pr.videoUrls = []) ∧
    (∀ (acct : String) (now : Nat) (env : Env) (e : FbError) (frag : String),
      env.videoObj "v1" = .error e → e.code = some 10 →
      env.previews "c1" = .ok (.jobj [("data", .jarr [.jobj [("body", .jstr frag)]])]) →
      frag ≠ "" →
      ∃ pr log, parseCreativeData staticVideoPayload acct now env = .ok (pr, log) ∧
        pr.videoIds = [.jstr "v1"] ∧ pr.videoUrls = [] ∧ pr.previewIframe = [frag]) :=
  ⟨parse_previews_inv, parse_static_video_permission⟩

/-- Witness for C6 against the concrete permission environment. -/
theorem claim6_witness :
    ∃ pr log, parseCreativeData staticVideoPayload "act" 0 permissionWitnessEnv =
      .ok (pr, log) ∧
      pr.videoIds = [.jstr "v1"] ∧ pr.videoUrls = [] ∧ pr.previewIframe = ["IFRAME"] :=
  claim6_preview_fragments.2 "act" 0 permissionWitnessEnv
    ⟨some 10, "permission denied"⟩ "IFRAME" rfl rfl rfl (by decide)

/-- C10: an empty creative id short-circuits getCreative: it returns null,
leaves the store untouched and performs no store or network operation. -/
theorem claim10_empty_id (adAccountId : String) (forceRefresh : Bool) (now : Nat)
    (env : Env) (store : Store) :
    getCreative "" adAccountId forceRefresh now env store = (none, store, []) := by
  simp [getCreative]

theorem find_map_replace (l : List (String × ParsedCreative)) (key : String)
    (rec : ParsedCreative) (h : l.any (fun kv => kv.1 == key) = true) :
    ((l.map (fun kv => if kv.1 == key then (key, rec) else kv)).find?
      (fun kv => kv.1 == key)) = some (key, rec) := by
  induction l with
  | nil => simp at h
  | cons kv tl ih =>
    by_cases hk : (kv.1 == key) = true
    · rw [List.map_cons, if_pos hk]
      exact List.find?_cons_of_pos _ (by simp)
    · simp only [List.any_cons, Bool.or_eq_true] at h
      rcases h with h | h
      · exact absurd h hk
      · rw [List.map_cons, if_neg hk, List.find?_cons_of_neg _ (by simpa using hk)]
        exact ih h

theorem find_append_new (l : List (String × ParsedCreative)) (key : String)
    (rec : ParsedCreative) (h : l.any (fun kv => kv.1 == key) = false) :
    ((l ++ [(key, rec)]).find? (fun kv => kv.1 == key)) = some (key, rec) := by
  induction l with
  | nil => simp [List.find?]
  | cons kv tl ih =>
    simp only [List.any_cons, Bool.or_eq_false_iff] at h
    simp [List.find?, h.1, ih h.2]

theorem storeFind_upsert (store : Store) (rec : ParsedCreative) :
    storeFind (storeUpsertRec store rec) (jsToString rec.creativeId) = some rec := by
  unfold storeUpsertRec storeFind
  by_cases h : store.any (fun kv => kv.1 == jsToString rec.creativeId) = true
  · rw [if_pos h, find_map_replace store _ rec h]
    rfl
  · simp only [Bool.not_eq_true] at h
    rw [if_neg (by simp [h]), find_append_new store _ rec h]
    rfl

theorem parse_lastFetchedAt (creativeData : JValue) (acct : String) (now : Nat)
    (env : Env) (pr : ParsedCreative) (log : List Eff)
    (h : parseCreativeData creativeData acct now env = .ok (pr, log)) :
    pr.lastFetchedAt = now := by
  unfold parseCreativeData at h
  obtain ⟨oss0, h1, h⟩ := except_bind_ok h
  obtain ⟨afs0, h2, h⟩ := except_bind_ok h
  obtain ⟨mode, hm, h⟩ := except_bind_ok h
  obtain ⟨mt, ht, h⟩ := except_bind_ok h
  obtain ⟨childAts, hch, h⟩ := except_bind_ok h
  obtain ⟨mediaPair, hdp, h⟩ := except_bind_ok h
  rcases mediaPair with ⟨⟨iu, ih2, vu, vi, pv⟩, log1⟩
  simp only [pure, Except.pure] at h
  have h3 := Except.ok.inj h
  have hrec := congrArg Prod.fst h3
  simp only [] at hrec
  rw [← hrec]

/-- C3: cache contract of getCreative. (a) Without forceRefresh, a stored
record fetched less than seven days ago is returned as-is with a single
store read and no network call. (b) On forceRefresh, a cache miss, or a
stale record, the creative is fetched from the network, parsed with
lastFetchedAt set to now, upserted, and the upserted record is findable
under its creative id. -/
theorem claim3_cache_contract :
    (∀ (creativeId adAccountId : String) (now : Nat) (env : Env) (store : Store)
      (c : ParsedCreative),
      creativeId ≠ "" → storeFind store creativeId = some c →
      isFresh now c.lastFetchedAt = true →
      getCreative creativeId adAccountId false now env store =
        (some c, store, [Eff.storeGet creativeId]) ∧
      ([Eff.storeGet creativeId].filter Eff.isNet) = []) ∧
    (∀ (creativeId adAccountId : String) (forceRefresh : Bool) (now : Nat) (env : Env)
      (store : Store) (d : JValue) (pr : ParsedCreative) (plog : List Eff),
      creativeId ≠ "" →
      (forceRefresh = true ∨ storeFind store creativeId = none ∨
        ∀ c, storeFind store creativeId = some c → isFresh now c.lastFetchedAt = false) →
      env.creativeObj creativeId = .ok d →
      parseCreativeData d adAccountId now env = .ok (pr, plog) →
      getCreative creativeId adAccountId forceRefresh now env store =
        (some pr, storeUpsertRec store pr,
          ((if forceRefresh then [] else [Eff.storeGet creativeId]) ++
            [Eff.netCreative creativeId]) ++ plog ++
            [Eff.storeUpsert (jsToString pr.creativeId)]) ∧
      pr.lastFetchedAt = now ∧
      storeFind (storeUpsertRec store pr) (jsToString pr.creativeId) = some pr) := by
  constructor
  · intro creativeId adAccountId now env store c hid hfind hfresh
    refine ⟨?_, rfl⟩
    unfold getCreative
    rw [if_neg hid]
    simp [hfind, hfresh]
  · intro creativeId adAccountId forceRefresh now env store d pr plog hid hmiss hfetch hparse
    have hhit : (if forceRefresh then none
        else match storeFind store creativeId with
          | some c => if isFresh now c.lastFetchedAt then some c else none
          | none => none) = (none : Option ParsedCreative) := by
      cases forceRefresh with
      | true => rfl
      | false =>
        simp only [if_false, Bool.false_eq_true]
        rcases hmiss with hmiss | hmiss | hmiss
        · exact absurd hmiss (by simp)
        · simp [hmiss]
        · cases hfind : storeFind store creativeId with
          | none => simp
          | some c => simp [hmiss c hfind]
    refine ⟨?_, parse_lastFetchedAt d adAccountId now env pr plog hparse,
      storeFind_upsert store pr⟩
    unfold getCreative
    rw [if_neg hid]
    simp only [hhit, hfetch, hparse]

/-- C4: when the network fetch or the parse fails, getCreative returns the
previously stored record if any (even a stale one), otherwise null, and
the store is left unchanged. -/
theorem claim4_failure_fallback (creativeId adAccountId : String) (forceRefresh : Bool)
    (now : Nat) (env : Env) (store : Store)
    (hid : creativeId ≠ "")
    (hmiss : forceRefresh = true ∨ storeFind store creativeId = none ∨
      ∀ c, storeFind store creativeId = some c → isFresh now c.lastFetchedAt = false)
    (hfail : (∃ e, env.creativeObj creativeId = .error e) ∨
      (∃ d, env.creativeObj creativeId = .ok d ∧
        parseCreativeData d adAccountId now env = .error ())) :
    (getCreative creativeId adAccountId forceRefresh now env store).1 =
      storeFind store creativeId ∧
    (getCreative creativeId adAccountId forceRefresh now env store).2.1 = store ∧
    ((getCreative creativeId adAccountId forceRefresh now env store).1 = none ↔
      storeFind store creativeId = none) := by
  have hhit : (if forceRefresh then none
      else match storeFind store creativeId with
        | some c => if isFresh now c.lastFetchedAt then some c else none
        | none => none) = (none : Option ParsedCreative) := by
    cases forceRefresh with
    | true => rfl
    | false =>
      simp only [if_false, Bool.false_eq_true]
      rcases hmiss with hmiss | hmiss | hmiss
      · exact absurd hmiss (by simp)
      · simp [hmiss]
      · cases hfind : storeFind store creativeId with
        | none => simp
        | some c => simp [hmiss c hfind]
  have heq : getCreative creativeId adAccountId forceRefresh now env store =
      (storeFind store creativeId, store,
        ((if forceRefresh then [] else [Eff.storeGet creativeId]) ++
          [Eff.netCreative creativeId]) ++ [Eff.storeGet creativeId]) := by
    unfold getCreative
    rw [if_neg hid]
    rcases hfail with ⟨e, he⟩ | ⟨d, hd, hp⟩
    · simp only [hhit, he]
    · simp only [hhit, hd, hp]
  rw [heq]
  exact ⟨rfl, rfl, Iff.rfl⟩

theorem storeFind_any {store : Store} {id : String} {ex : ParsedCreative}
    (h : storeFind store id = some ex) :
    store.any (fun kv => kv.1 == id) = true := by
  unfold storeFind at h
  cases hf : store.find? (fun kv => kv.1 == id) with
  | none => rw [hf] at h; simp at h
  | some kv =>
    have hmem := List.mem_of_find?_eq_some hf
    have hp := List.find?_some hf
    exact List.any_eq_true.mpr ⟨kv, hmem, hp⟩

theorem fetchVideoDetails_log (videoId : String) (env : Env) :
    (fetchVideoDetails videoId env).2 = [Eff.netVideo videoId] := by
  cases hv : env.videoObj videoId with
  | error e => simp [fetchVideoDetails, hv]
  | ok vd =>
    simp only [fetchVideoDetails, hv]
    repeat' split
    all_goals rfl

theorem fetchVideoPreviewIframe_log (creativeId : String) (env : Env) :
    (fetchVideoPreviewIframe creativeId env).2 = [Eff.netPreviews creativeId] := by
  cases hv : env.previews creativeId with
  | error e => simp [fetchVideoPreviewIframe, hv]
  | ok resp =>
    simp only [fetchVideoPreviewIframe, hv]
    repeat' split
    all_goals rfl

theorem enrichVideoMedia_log (vid cid : JValue) (env : Env) :
    (enrichVideoMedia vid cid env).2 = [Eff.netVideo (jsToString vid)] ∨
    (enrichVideoMedia vid cid env).2 =
      [Eff.netVideo (jsToString vid), Eff.netPreviews (jsToString cid)] := by
  unfold enrichVideoMedia
  rcases hfd : fetchVideoDetails (jsToString vid) env with ⟨vd, l1⟩
  have hl1 : l1 = [Eff.netVideo (jsToString vid)] := by
    rw [← fetchVideoDetails_log (jsToString vid) env, hfd]
  rcases hpv : fetchVideoPreviewIframe (jsToString cid) env with ⟨pf, l2⟩
  have hl2 : l2 = [Eff.netPreviews (jsToString cid)] := by
    rw [← fetchVideoPreviewIframe_log (jsToString cid) env, hpv]
  cases vd with
  | none => right; simp [hpv, hl1, hl2]
  | some d =>
    by_cases hs : truthy (getField d "source") = true
    · left; simp [hs, hl1]
    · simp only [Bool.not_eq_true] at hs
      right; simp [hs, hpv, hl1, hl2]

/-- C7: smart refresh of a stored video creative: refreshCreativeUrls
re-enriches from the first stored video id, keeps the existing image urls,
replaces video urls, ids and preview iframes with the fresh enrichment,
stamps lastFetchedAt with now, updates the record in place in the store,
and the network traffic is the video-details call optionally followed by
the preview call. -/
theorem claim7_video_refresh (creativeId adAccountId : String) (now : Nat) (env : Env)
    (store : Store) (ex : ParsedCreative) (v : JValue)
    (hfound : storeFind store creativeId = some ex)
    (hm1 : ex.creativeMode ≠ .DYNAMIC_ASSET_FEED)
    (hm2 : ex.creativeMode ≠ .DYNAMIC_CATALOG)
    (hm3 : ex.creativeMode ≠ .STATIC_CAROUSEL)
    (hmt : ex.mediaType = .VIDEO ∨ ex.mediaType = .MIXED)
    (hvid : ex.videoIds.head? = some v)
    (hvt : truthy v = true)
    (hres : (enrichVideoMedia v (.jstr creativeId) env).1.videoUrls ≠ [] ∨
      (enrichVideoMedia v (.jstr creativeId) env).1.previewIframes ≠ []) :
    ∃ upd,
      refreshCreativeUrls creativeId adAccountId now env store =
        (some upd,
         store.map (fun kv => if kv.1 == creativeId then (creativeId, upd) else kv),
         [Eff.storeGet creativeId] ++ (enrichVideoMedia v (.jstr creativeId) env).2 ++
           [Eff.storeUpdate creativeId]) ∧
      upd.imageUrls = ex.imageUrls ∧
      upd.videoUrls = (enrichVideoMedia v (.jstr creativeId) env).1.videoUrls ∧
      upd.videoIds = (enrichVideoMedia v (.jstr creativeId) env).1.videoIds ∧
      upd.previewIframe = (enrichVideoMedia v (.jstr creativeId) env).1.previewIframes ∧
      upd.lastFetchedAt = now ∧
      storeFind (store.map (fun kv =>
        if kv.1 == creativeId then (creativeId, upd) else kv)) creativeId = some upd ∧
      ((enrichVideoMedia v (.jstr creativeId) env).2 = [Eff.netVideo (jsToString v)] ∨
       (enrichVideoMedia v (.jstr creativeId) env).2 =
         [Eff.netVideo (jsToString v), Eff.netPreviews creativeId]) := by
  rcases henr : enrichVideoMedia v (.jstr creativeId) env with ⟨ve, vlog⟩
  rw [henr] at hres
  refine ⟨{ ex with
      videoUrls := ve.videoUrls
      videoIds := ve.videoIds
      previewIframe := ve.previewIframes
      imageUrls := ex.imageUrls
      thumbnailUrl := jor ve.thumbnailUrl ex.thumbnailUrl
      lastFetchedAt := now }, ?_, rfl, rfl, rfl, rfl, rfl, ?_, ?_⟩
  · unfold refreshCreativeUrls
    simp only [hfound]
    rw [if_neg (by rintro (h | h); exact hm1 h; exact hm2 h)]
    rw [if_neg hm3]
    unfold refreshVideoTail
    rw [if_pos hmt]
    simp only [hvid]
    rw [if_neg (by simp [hvt])]
    simp only [henr]
    rw [if_pos (by
      rcases hres with h | h
      · exact Or.inl (List.length_pos.mpr h)
      · exact Or.inr (List.length_pos.mpr h))]
    unfold storeUpdateWith
    simp only [hfound]
  · unfold storeFind
    rw [find_map_replace store creativeId _ (storeFind_any hfound)]
    rfl
  · have hlog := enrichVideoMedia_log v (.jstr creativeId) env
    rw [henr] at hlog
    simpa [jsToString] using hlog

/-- Witness for C3 at concrete inputs: the fresh-hit path on witnessStore
and the forced-fetch path on the minimal payload. -/
theorem claim3_witness :
    (getCreative "c1" "act" false 1000 fetchWitnessEnv witnessStore =
        (some witnessRecord, witnessStore, [Eff.storeGet "c1"]) ∧
      ([Eff.storeGet "c1"].filter Eff.isNet) = []) ∧
    (getCreative "c1" "act" true 5 fetchWitnessEnv [] =
        (some simpleParsedRecord, storeUpsertRec [] simpleParsedRecord,
          ((if true then [] else [Eff.storeGet "c1"]) ++ [Eff.netCreative "c1"]) ++
            [] ++ [Eff.storeUpsert (jsToString simpleParsedRecord.creativeId)]) ∧
      simpleParsedRecord.lastFetchedAt = 5 ∧
      storeFind (storeUpsertRec [] simpleParsedRecord)
        (jsToString simpleParsedRecord.creativeId) = some simpleParsedRecord) :=
  ⟨claim3_cache_contract.1 "c1" "act" 1000 fetchWitnessEnv witnessStore witnessRecord
      (by decide) rfl (by decide),
   claim3_cache_contract.2 "c1" "act" true 5 fetchWitnessEnv [] simpleCreativePayload
      simpleParsedRecord [] (by decide) (Or.inl rfl) rfl rfl⟩

/-- Witness for C4 at concrete inputs: a rejected fetch with a stale stored
record is served from the store and the store is unchanged. -/
theorem claim4_witness :
    (getCreative "c1" "act" false 700000000 failWitnessEnv witnessStore).1 =
      storeFind witnessStore "c1" ∧
    (getCreative "c1" "act" false 700000000 failWitnessEnv witnessStore).2.1 =
      witnessStore ∧
    ((getCreative "c1" "act" false 700000000 failWitnessEnv witnessStore).1 = none ↔
      storeFind witnessStore "c1" = none) :=
  claim4_failure_fallback "c1" "act" false 700000000 failWitnessEnv witnessStore
    (by decide)
    (Or.inr (Or.inr (fun c hc => by
      have h2 : some witnessRecord = some c := hc
      rw [← Option.some.inj h2]
      decide)))
    (Or.inl ⟨⟨none, "boom"⟩, rfl⟩)

/-- Witness for C7 at concrete inputs: refreshing the stored static video
record against the permission-denied environment, where enrichment yields
a preview iframe. -/
theorem claim7_witness :
    ∃ upd,
      refreshCreativeUrls "c1" "act" 99 permissionWitnessEnv witnessStore =
        (some upd,
         witnessStore.map (fun kv => if kv.1 == "c1" then ("c1", upd) else kv),
         [Eff.storeGet "c1"] ++
           (enrichVideoMedia (.jstr "v1") (.jstr "c1") permissionWitnessEnv).2 ++
           [Eff.storeUpdate "c1"]) ∧
      upd.imageUrls = witnessRecord.imageUrls ∧
      upd.videoUrls =
        (enrichVideoMedia (.jstr "v1") (.jstr "c1") permissionWitnessEnv).1.videoUrls ∧
      upd.videoIds =
        (enrichVideoMedia (.jstr "v1") (.jstr "c1") permissionWitnessEnv).1.videoIds ∧
      upd.previewIframe =
        (enrichVideoMedia (.jstr "v1")
          (.jstr "c1") permissionWitnessEnv).1.previewIframes ∧
      upd.lastFetchedAt = 99 ∧
      storeFind (witnessStore.map (fun kv =>
        if kv.1 == "c1" then ("c1", upd) else kv)) "c1" = some upd ∧
      ((enrichVideoMedia (.jstr "v1") (.jstr "c1") permissionWitnessEnv).2 =
         [Eff.netVideo (jsToString (.jstr "v1"))] ∨
       (enrichVideoMedia (.jstr "v1") (.jstr "c1") permissionWitnessEnv).2 =
         [Eff.netVideo (jsToString (.jstr "v1")), Eff.netPreviews "c1"]) :=
  claim7_video_refresh "c1" "act" 99 permissionWitnessEnv witnessStore witnessRecord
    (.jstr "v1") rfl (by decide) (by decide) (by decide) (Or.inl rfl) rfl (by decide)
    (Or.inr (by decide))


end RevenuePro
